import Mathlib

/-!
Shallow embedding of `format-config-v1.go` (cluster format discovery and
healing core): data model, per-endpoint loader, error reducer, consistency
checker, generic fleet gate, mount procedure, healer, initializer and
reorderer, with theorems settling the specification claims C1-C10.

Go sentinel errors are modelled as constructors of an inductive type
(`err == errX` in Go is pointer identity of distinct sentinels, hence
constructor equality here); `fmt.Errorf`/`errors.New` results are `goErr msg`;
`json.Unmarshal` failures are `unmarshalTypeError msg`.  A Go function that can
nil-dereference or index out of bounds is given result type `GoResult`, whose
`panicked` value records a Go runtime panic.  The storage endpoint (StorageAPI)
is modelled by the responses the core observes from it; `getUUID` by a caller
supplied stream of minted identities; `json.Unmarshal` by a caller-supplied
decode function (both are external collaborators of this file).  Publishing
(`saveFormatXL`) is abstracted to returning the manifests handed to it.
-/

/-- Go error values observed by the core: the named sentinels of the source
plus the two open-ended error families (`errors.New`/`fmt.Errorf` strings and
`encoding/json` decode errors). -/
inductive GoError : Type where
  | errUnformattedDisk
  | errDiskNotFound
  | errVolumeNotFound
  | errFileNotFound
  | errCorruptedFormat
  | errXLReadQuorum
  | errSomeDiskUnformatted
  | errSomeDiskOffline
  | errDiskOrderMismatch
  | unmarshalTypeError (msg : String)
  | goErr (msg : String)
deriving DecidableEq, Repr

/-- fsFormat - structure holding 'fs' format. -/
structure fsFormat where
  Version : String
deriving DecidableEq, Repr

/-- xlFormat - structure holding 'xl' format (version, disk uuid, JBOD order). -/
structure xlFormat where
  Version : String
  Disk : String
  JBOD : List String
deriving DecidableEq, Repr

/-- formatConfigV1 - format config version '1'.  The Go `*fsFormat`/`*xlFormat`
pointer fields (nil-able, `omitempty`) are `Option`s. -/
structure formatConfigV1 where
  Version : String
  Format : String
  FS : Option fsFormat
  XL : Option xlFormat
deriving DecidableEq, Repr

/-- Result of running a Go function: normal value, error return, or runtime
panic (nil-pointer dereference / out-of-range index). -/
inductive GoResult (α : Type) : Type where
  | ok (val : α)
  | err (e : GoError)
  | panicked
deriving DecidableEq, Repr

/-- Sequencing of Go computations: errors and panics propagate. -/
def goBind {α β : Type} (r : GoResult α) (f : α → GoResult β) : GoResult β :=
  match r with
  | .ok a => f a
  | .err e => .err e
  | .panicked => .panicked

deriving instance DecidableEq for Except

/-- VolInfo - volume metadata returned by `ListVols`. -/
structure VolInfo where
  Name : String
deriving DecidableEq, Repr

/-- Model of one storage endpoint as seen by the core: the outcome of reading
`format.json` from the meta volume, and the outcome of listing volumes. -/
structure StorageAPI where
  readAllResult : Except GoError String
  listVolsResult : Except GoError (List VolInfo)
deriving DecidableEq, Repr

/-- strings.Join with a separator (Go semantics: empty list joins to ""). -/
def goJoin (sep : String) : List String → String
  | [] => ""
  | [a] => a
  | a :: rest => a ++ sep ++ goJoin sep rest

/-- findDiskIndex inner loop carrying the running index. -/
def findDiskIndexAux (disk : String) : List String → Nat → Int
  | [], _ => -1
  | uuid :: rest, index => if uuid = disk then (index : Int) else findDiskIndexAux disk rest (index + 1)

/-- findDiskIndex returns position of disk in JBOD (-1 when absent). -/
def findDiskIndex (disk : String) (jbod : List String) : Int :=
  findDiskIndexAux disk jbod 0

/-- Predicate for the `else` branch of genericFormatCheck's error loop: entries
that are neither nil nor errUnformattedDisk nor errVolumeNotFound nor
errCorruptedFormat are counted into errCount. -/
def isOtherErr : Option GoError → Bool
  | none => false
  | some .errUnformattedDisk => false
  | some .errVolumeNotFound => false
  | some .errCorruptedFormat => false
  | some _ => true

/-- reduceFormatErrs - reduces the error slice into understandable errors. -/
def reduceFormatErrs (errs : List (Option GoError)) (diskCount : Nat) : Option GoError :=
  let errUnformattedDiskCount := errs.count (some .errUnformattedDisk)
  let errDiskNotFoundCount := errs.count (some .errDiskNotFound)
  if errUnformattedDiskCount = diskCount then
    some .errUnformattedDisk
  else if errUnformattedDiskCount < diskCount ∧ errDiskNotFoundCount = 0 then
    some .errSomeDiskUnformatted
  else if errUnformattedDiskCount < diskCount ∧ errDiskNotFoundCount > 0 then
    some .errSomeDiskOffline
  else
    none

/-- `prevOrderIndex := orderIndexes[0]` then comparison against every entry;
indexing an empty slice panics in Go. -/
def checkOrderIndexes : List Int → GoResult Bool
  | [] => .panicked
  | i0 :: rest => .ok (rest.all (fun i => i = i0))

/-- isSavedUUIDInOrder first loop: walk the configs, skip nil entries, look the
uuid up in each JBOD (returning false on a miss), and collect 1-based
positions.  Dereferencing a nil `XL` section panics. -/
def isSavedUUIDInOrderAux (uuid : String) (acc : List Int) :
    List (Option formatConfigV1) → GoResult Bool
  | [] => checkOrderIndexes acc
  | none :: rest => isSavedUUIDInOrderAux uuid acc rest
  | some formatConfig :: rest =>
    match formatConfig.XL with
    | none => .panicked
    | some xl =>
      if findDiskIndex uuid xl.JBOD = -1 then .ok false
      else isSavedUUIDInOrderAux uuid (acc ++ [findDiskIndex uuid xl.JBOD + 1]) rest

/-- isSavedUUIDInOrder - validates if disk uuid is present in all available
format config JBODs, always under the same order. -/
def isSavedUUIDInOrder (uuid : String) (formatConfigs : List (Option formatConfigV1)) :
    GoResult Bool :=
  isSavedUUIDInOrderAux uuid [] formatConfigs

/-- checkDisksConsistency first loop: collect the disk uuid of every config
("" for nil entries); reading `.XL.Disk` of a config with nil XL panics. -/
def collectDisks : List (Option formatConfigV1) → GoResult (List String)
  | [] => .ok []
  | none :: rest => goBind (collectDisks rest) (fun ds => .ok ("" :: ds))
  | some formatConfig :: rest =>
    match formatConfig.XL with
    | none => .panicked
    | some xl => goBind (collectDisks rest) (fun ds => .ok (xl.Disk :: ds))

/-- checkDisksConsistency second loop over the collected uuids. -/
def checkDisksLoop (formatConfigs : List (Option formatConfigV1)) :
    List String → GoResult Unit
  | [] => .ok ()
  | uuid :: rest =>
    if uuid = "" then checkDisksLoop formatConfigs rest
    else
      match isSavedUUIDInOrder uuid formatConfigs with
      | .ok true => checkDisksLoop formatConfigs rest
      | .ok false => .err (.goErr (uuid ++ " disk not found in JBOD"))
      | .err e => .err e
      | .panicked => .panicked

/-- checkDisksConsistency - checks if all disks are consistent with all JBOD
entries on all disks. -/
def checkDisksConsistency (formatConfigs : List (Option formatConfigV1)) : GoResult Unit :=
  goBind (collectDisks formatConfigs) (fun disks => checkDisksLoop formatConfigs disks)

/-- checkJBODConsistency: extract the first valid JBOD joined with "."
(`jbodStr` stays "" when no config is present). -/
def firstJBODStr : List (Option formatConfigV1) → GoResult String
  | [] => .ok ""
  | none :: rest => firstJBODStr rest
  | some format :: _ =>
    match format.XL with
    | none => .panicked
    | some xl => .ok (goJoin "." xl.JBOD)

/-- checkJBODConsistency comparison loop against the extracted join. -/
def checkJBODLoop (jbodStr : String) : List (Option formatConfigV1) → GoResult Unit
  | [] => .ok ()
  | none :: rest => checkJBODLoop jbodStr rest
  | some format :: rest =>
    match format.XL with
    | none => .panicked
    | some xl =>
      if jbodStr ≠ goJoin "." xl.JBOD then .err (.goErr "Inconsistent JBOD found.")
      else checkJBODLoop jbodStr rest

/-- checkJBODConsistency - validate xl jbod order if they are consistent. -/
def checkJBODConsistency (formatConfigs : List (Option formatConfigV1)) : GoResult Unit :=
  goBind (firstJBODStr formatConfigs) (fun jbodStr => checkJBODLoop jbodStr formatConfigs)

/-- checkFormatXL per-config validation loop (version fields and JBOD
cardinality); `formatXL.XL.Version` on a nil XL section panics. -/
def checkFormatLoop (diskCount : Nat) : List (Option formatConfigV1) → GoResult Unit
  | [] => .ok ()
  | none :: rest => checkFormatLoop diskCount rest
  | some formatXL :: rest =>
    if formatXL.Version ≠ "1" then
      .err (.goErr ("Unsupported version of backend format [" ++ formatXL.Version ++ "] found."))
    else if formatXL.Format ≠ "xl" then
      .err (.goErr ("Unsupported backend format [" ++ formatXL.Format ++ "] found."))
    else
      match formatXL.XL with
      | none => .panicked
      | some xl =>
        if xl.Version ≠ "1" then
          .err (.goErr ("Unsupported XL backend format found [" ++ xl.Version ++ "]"))
        else if diskCount ≠ xl.JBOD.length then
          .err (.goErr ("Number of disks " ++ toString diskCount ++
            " did not match the backend format " ++ toString xl.JBOD.length))
        else checkFormatLoop diskCount rest

/-- checkFormatXL - verifies if format.json format is intact. -/
def checkFormatXL (formatConfigs : List (Option formatConfigV1)) : GoResult Unit :=
  goBind (checkFormatLoop formatConfigs.length formatConfigs) (fun _ =>
    goBind (checkJBODConsistency formatConfigs) (fun _ =>
      checkDisksConsistency formatConfigs))

/-- genericFormatCheck - quorum gate, corruption gate, then checkFormatXL.
The quorum comparison is Go `int` arithmetic, hence over `Int`. -/
def genericFormatCheck (formatConfigs : List (Option formatConfigV1))
    (sErrs : List (Option GoError)) : GoResult Unit :=
  let errCorruptFormatCount := sErrs.count (some .errCorruptedFormat)
  let errCount := (sErrs.filter isOtherErr).length
  let readQuorum : Nat := formatConfigs.length / 2 + 1
  if (errCount : Int) > (formatConfigs.length : Int) - (readQuorum : Int) then
    .err .errXLReadQuorum
  else if errCorruptFormatCount > 0 then
    .err .errCorruptedFormat
  else checkFormatXL formatConfigs

/-- loadFormat - loads format.json from one endpoint, classifying a missing
file/volume as fresh (`errUnformattedDisk`) or as user data without a manifest
(`errCorruptedFormat`); a successful read is handed to `unmarshal`, whose
error is returned unchanged. -/
def loadFormat (unmarshal : String → Except GoError formatConfigV1)
    (disk : StorageAPI) : Except GoError formatConfigV1 :=
  match disk.readAllResult with
  | .error e =>
    if e = .errFileNotFound ∨ e = .errVolumeNotFound then
      match disk.listVolsResult with
      | .error e2 => .error e2
      | .ok vols =>
        if vols.length > 1 then .error .errCorruptedFormat
        else .error .errUnformattedDisk
    else .error e
  | .ok buffer => unmarshal buffer

/-- isFormatNotFound - true if all `format.json` are missing on all disks. -/
def isFormatNotFound (formats : List (Option formatConfigV1)) : Bool :=
  formats.all Option.isNone

/-- isFormatFound - true if all `format.json` are present on all disks. -/
def isFormatFound (formats : List (Option formatConfigV1)) : Bool :=
  formats.all Option.isSome

/-- initFormatXL first loop: one fresh uuid per non-nil disk, "" for nil
entries; `k` counts the uuids minted so far. -/
def initJbod {α : Type} (uuids : Nat → String) : Nat → List (Option α) → List String
  | _, [] => []
  | k, none :: rest => "" :: initJbod uuids k rest
  | k, some _ :: rest => uuids k :: initJbod uuids (k + 1) rest

/-- initFormatXL assembly: a fresh version-1 xl manifest carrying its own uuid
and the shared jbod for every non-nil disk, nil for nil entries. -/
def initAssemble {α : Type} (jbod : List String) :
    List (Option α) → List String → List (Option formatConfigV1)
  | [], _ => []
  | _ :: _, [] => []
  | none :: rest, _ :: js => none :: initAssemble jbod rest js
  | some _ :: rest, u :: js =>
    some ⟨"1", "xl", none, some ⟨"1", u, jbod⟩⟩ :: initAssemble jbod rest js

/-- initFormatXL - mints identities in bootstrap order and returns the
manifests handed to saveFormatXL. -/
def initFormatXL {α : Type} (uuids : Nat → String) (storageDisks : List (Option α)) :
    List (Option formatConfigV1) :=
  let jbod := initJbod uuids 0 storageDisks
  initAssemble jbod storageDisks jbod

/-- Outcome of healFormatXL's load loop: abort with an unsupported error,
return nil early on errDiskNotFound, or the aligned config vector. -/
inductive LoadPhase : Type where
  | abort (e : GoError)
  | earlyOk
  | configs (cs : List (Option formatConfigV1))
deriving DecidableEq, Repr

/-- healFormatXL load loop: errUnformattedDisk leaves a nil slot to heal,
errDiskNotFound returns nil for the whole heal, any other error aborts. -/
def healLoadLoop (unmarshal : String → Except GoError formatConfigV1) :
    List StorageAPI → LoadPhase
  | [] => .configs []
  | disk :: rest =>
    match loadFormat unmarshal disk with
    | .error .errUnformattedDisk =>
      match healLoadLoop unmarshal rest with
      | .configs cs => .configs (none :: cs)
      | other => other
    | .error .errDiskNotFound => .earlyOk
    | .error e => .abort e
    | .ok formatXL =>
      match healLoadLoop unmarshal rest with
      | .configs cs => .configs (some formatXL :: cs)
      | other => other

/-- referenceConfig selection: the first present config. -/
def firstPresentConfig : List (Option formatConfigV1) → Option formatConfigV1
  | [] => none
  | none :: rest => firstPresentConfig rest
  | some f :: _ => some f

/-- healFormatXL minting loop: `newJBOD[index] = getUUID()` at every absent
index (Go would panic on an out-of-range write). -/
def mintJbod (uuids : Nat → String) :
    Nat → Nat → List (Option formatConfigV1) → List String → GoResult (List String)
  | _, _, [], jbod => .ok jbod
  | index, k, none :: rest, jbod =>
    if index < jbod.length then
      mintJbod uuids (index + 1) (k + 1) rest (jbod.set index (uuids k))
    else .panicked
  | index, k, some _ :: rest, jbod => mintJbod uuids (index + 1) k rest jbod

/-- healFormatXL rebuild loop: a fresh manifest (from the reference) for every
absent slot, and for every present slot the original manifest with
`XL.JBOD := newJBOD` and `XL.Disk := newJBOD[index]`. -/
def buildNewConfigs (referenceConfig : formatConfigV1) (refXL : xlFormat)
    (newJBOD : List String) :
    Nat → List (Option formatConfigV1) → GoResult (List (Option formatConfigV1))
  | _, [] => .ok []
  | index, none :: rest =>
    match newJBOD[index]? with
    | none => .panicked
    | some diskUUID =>
      goBind (buildNewConfigs referenceConfig refXL newJBOD (index + 1) rest) (fun cs =>
        .ok (some ⟨referenceConfig.Version, referenceConfig.Format, none,
          some ⟨refXL.Version, diskUUID, newJBOD⟩⟩ :: cs))
  | index, some format :: rest =>
    match format.XL with
    | none => .panicked
    | some xl =>
      match newJBOD[index]? with
      | none => .panicked
      | some diskUUID =>
        goBind (buildNewConfigs referenceConfig refXL newJBOD (index + 1) rest) (fun cs =>
          .ok (some ⟨format.Version, format.Format, format.FS,
            some ⟨xl.Version, diskUUID, newJBOD⟩⟩ :: cs))

/-- Observable outcome of a healFormatXL run: error return, panic, a nil
return that wrote nothing, or the manifests handed to saveFormatXL. -/
inductive HealOutcome : Type where
  | failed (e : GoError)
  | panicked
  | noHeal
  | saved (newFormatConfigs : List (Option formatConfigV1))
deriving DecidableEq, Repr

/-- healFormatXL - heals missing format.json on the drives: load everything
(returning nil as soon as a disk is not found), do nothing when all manifests
are present, delegate to initFormatXL when all are absent, otherwise validate,
pick the first present config as reference, mint fresh uuids into the
reference JBOD at the absent bootstrap indices, and rebuild every manifest
around the updated JBOD. -/
def healFormatXL (unmarshal : String → Except GoError formatConfigV1)
    (uuids : Nat → String) (storageDisks : List StorageAPI) : HealOutcome :=
  match healLoadLoop unmarshal storageDisks with
  | .abort e => .failed e
  | .earlyOk => .noHeal
  | .configs formatConfigs =>
    if isFormatFound formatConfigs then .noHeal
    else if isFormatNotFound formatConfigs then
      .saved (initFormatXL uuids (storageDisks.map some))
    else
      match checkFormatXL formatConfigs with
      | .err e => .failed e
      | .panicked => .panicked
      | .ok _ =>
        match firstPresentConfig formatConfigs with
        | none => .panicked
        | some referenceConfig =>
          match referenceConfig.XL with
          | none => .panicked
          | some refXL =>
            match mintJbod uuids 0 0 formatConfigs refXL.JBOD with
            | .panicked => .panicked
            | .err e => .failed e
            | .ok newJBOD =>
              match buildNewConfigs referenceConfig refXL newJBOD 0 formatConfigs with
              | .panicked => .panicked
              | .err e => .failed e
              | .ok newFormatConfigs => .saved newFormatConfigs

/-- loadFormatXL load loop, counting unformatted and unreachable disks and
aborting on any other error. -/
def loadXLLoop (unmarshal : String → Except GoError formatConfigV1) :
    List StorageAPI → Except GoError (List (Option formatConfigV1) × Nat × Nat)
  | [] => .ok ([], 0, 0)
  | disk :: rest =>
    match loadFormat unmarshal disk with
    | .error .errUnformattedDisk =>
      match loadXLLoop unmarshal rest with
      | .ok (cs, u, d) => .ok (none :: cs, u + 1, d)
      | .error e => .error e
    | .error .errDiskNotFound =>
      match loadXLLoop unmarshal rest with
      | .ok (cs, u, d) => .ok (none :: cs, u, d + 1)
      | .error e => .error e
    | .error e => .error e
    | .ok formatXL =>
      match loadXLLoop unmarshal rest with
      | .ok (cs, u, d) => .ok (some formatXL :: cs, u, d)
      | .error e => .error e

/-- reorderDisks: pick the first present config's JBOD as the order of
reference. -/
def firstSavedJBOD : List (Option formatConfigV1) → GoResult (List String)
  | [] => .ok []
  | none :: rest => firstSavedJBOD rest
  | some format :: _ =>
    match format.XL with
    | none => .panicked
    | some xl => .ok xl.JBOD

/-- reorderDisks placement loop: `newDisks[jIndex] = bootstrapDisks[fIndex]`
for every present config (Go panics on either index being out of range). -/
def reorderLoop {α : Type} (bootstrapDisks : List α) (savedJBOD : List String) :
    Nat → List (Option α) → List (Option formatConfigV1) → GoResult (List (Option α))
  | _, newDisks, [] => .ok newDisks
  | fIndex, newDisks, none :: rest =>
    reorderLoop bootstrapDisks savedJBOD (fIndex + 1) newDisks rest
  | fIndex, newDisks, some format :: rest =>
    match format.XL with
    | none => .panicked
    | some xl =>
      if findDiskIndex xl.Disk savedJBOD = -1 then
        .err (.goErr ("Unrecognized uuid " ++ xl.Disk ++ " found"))
      else
        match bootstrapDisks[fIndex]? with
        | none => .panicked
        | some disk =>
          if (findDiskIndex xl.Disk savedJBOD).toNat < newDisks.length then
            reorderLoop bootstrapDisks savedJBOD (fIndex + 1)
              (newDisks.set (findDiskIndex xl.Disk savedJBOD).toNat (some disk)) rest
          else .panicked

/-- reorderDisks - reorder the bootstrap disk handles into JBOD order. -/
def reorderDisks {α : Type} (bootstrapDisks : List α)
    (formatConfigs : List (Option formatConfigV1)) : GoResult (List (Option α)) :=
  goBind (firstSavedJBOD formatConfigs) (fun savedJBOD =>
    reorderLoop bootstrapDisks savedJBOD 0
      (List.replicate bootstrapDisks.length none) formatConfigs)

/-- loadFormatXL - loads XL `format.json` from all bootstrap disks and returns
the properly ordered storage slice. -/
def loadFormatXL (unmarshal : String → Except GoError formatConfigV1)
    (bootstrapDisks : List StorageAPI) : GoResult (List (Option StorageAPI)) :=
  match loadXLLoop unmarshal bootstrapDisks with
  | .error e => .err e
  | .ok (formatConfigs, unformattedDisksFoundCnt, diskNotFoundCount) =>
    let n := bootstrapDisks.length
    let readQuorum : Nat := n / 2 + 1
    if unformattedDisksFoundCnt = n then .err .errUnformattedDisk
    else if diskNotFoundCount = n then .err .errDiskNotFound
    else if (diskNotFoundCount : Int) > (n : Int) - (readQuorum : Int) then
      .err .errXLReadQuorum
    else if (unformattedDisksFoundCnt : Int) > (n : Int) - (readQuorum : Int) then
      .err .errXLReadQuorum
    else
      goBind (checkFormatXL formatConfigs) (fun _ =>
        reorderDisks bootstrapDisks formatConfigs)

/-- Observer used only in theorem statements: the xl identity of a manifest
("" when the xl section is absent). -/
def xlDiskOf (c : formatConfigV1) : String :=
  match c.XL with
  | none => ""
  | some xl => xl.Disk

/-- Deterministic stream of minted identities used by concrete scenarios. -/
def testUuids : Nat → String := fun k => "u" ++ toString k

/-- Concrete surviving manifest: identity "a", canonical order ["b", "a"]
(its identity sits at canonical position 1, bootstrap position 0). -/
def cfgA : formatConfigV1 := ⟨"1", "xl", none, some ⟨"1", "a", ["b", "a"]⟩⟩

/-- Concrete decoder: payload "A" decodes to `cfgA`, anything else fails. -/
def testUnmarshal : String → Except GoError formatConfigV1 := fun s =>
  if s = "A" then .ok cfgA else .error (.unmarshalTypeError "invalid character")

/-- Endpoint whose manifest reads back as payload "A". -/
def diskA : StorageAPI := ⟨.ok "A", .ok []⟩

/-- Fresh endpoint: meta volume missing, no user volumes. -/
def diskFresh : StorageAPI := ⟨.error .errVolumeNotFound, .ok []⟩

/-- Unreachable endpoint: every call fails with errDiskNotFound. -/
def diskOffline : StorageAPI := ⟨.error .errDiskNotFound, .error .errDiskNotFound⟩

/-- Manifest whose order contains identities with an embedded '.'. -/
def c4cfg1 : formatConfigV1 := ⟨"1", "xl", none, some ⟨"1", "x", ["x", "a.b", "c"]⟩⟩

/-- Manifest with a different order list but the same '.'-joined string. -/
def c4cfg2 : formatConfigV1 := ⟨"1", "xl", none, some ⟨"1", "x", ["x", "a", "b.c"]⟩⟩

/-- Manifest used twice to build a fleet with duplicate identities. -/
def c8cfg : formatConfigV1 := ⟨"1", "xl", none, some ⟨"1", "x", ["x", "y"]⟩⟩

/-- Present manifest declaring backend "xl" with an absent xl section (the
decode of a payload like {"version":"1","format":"xl"}). -/
def c10cfg : formatConfigV1 := ⟨"1", "xl", none, none⟩

/-- Well-formed two-endpoint fleet member with dot-free identities. -/
def cfgB1 : formatConfigV1 := ⟨"1", "xl", none, some ⟨"1", "u", ["u", "v"]⟩⟩

/-- Second member of the well-formed two-endpoint fleet. -/
def cfgB2 : formatConfigV1 := ⟨"1", "xl", none, some ⟨"1", "v", ["u", "v"]⟩⟩

/-- C1 counterexample: on the fleet (manifest present, fresh disk, unreachable
disk) the Healer invoked (it takes no force permission) returns success
having written nothing, instead of failing with a NeedsForce error as the
claim states. -/
theorem c1_counterexample :
    healFormatXL testUnmarshal testUuids [diskA, diskFresh, diskOffline] =
      HealOutcome.noHeal := by
  decide

/-- C2 failing input evaluated: healing the two-endpoint fleet whose surviving
manifest has identity "a" at canonical position 1 (bootstrap position 0)
publishes a manifest whose `xl.identity` has been rewritten from "a" to "b":
a previously-present endpoint does not keep its identity. -/
theorem c2_heal_rewrites_survivor_identity :
    healFormatXL testUnmarshal testUuids [diskA, diskFresh] =
      HealOutcome.saved
        [some ⟨"1", "xl", none, some ⟨"1", "b", ["b", "u0"]⟩⟩,
         some ⟨"1", "xl", none, some ⟨"1", "u0", ["b", "u0"]⟩⟩] ∧
    cfgA.XL = some ⟨"1", "a", ["b", "a"]⟩ ∧
    ("b" : String) ≠ "a" := by
  decide

/-- C4 counterexample: two present manifests whose order lists differ at a
position (identities containing '.') are both accepted by the Consistency
Checker, because it only compares the '.'-joined strings. -/
theorem c4_counterexample :
    checkFormatXL [some c4cfg1, some c4cfg2, none] = GoResult.ok () ∧
    c4cfg1.XL = some ⟨"1", "x", ["x", "a.b", "c"]⟩ ∧
    c4cfg2.XL = some ⟨"1", "x", ["x", "a", "b.c"]⟩ ∧
    (["x", "a.b", "c"] : List String) ≠ ["x", "a", "b.c"] := by
  decide

/-- C5 counterexample: on an error vector with no Unformatted entry at all
(all entries nil) the Error Reducer returns SomeUnformatted, not None. -/
theorem c5_counterexample :
    reduceFormatErrs [none, none] 2 = some GoError.errSomeDiskUnformatted ∧
    ([none, none] : List (Option GoError)).count (some GoError.errUnformattedDisk) = 0 := by
  decide

/-- C6 counterexample: on a fleet of three with two Corrupted entries the
Generic Fleet Gate returns Corrupted, not NoReadQuorum — Corrupted entries are
counted into corruptCount, not into errCount. -/
theorem c6_counterexample :
    genericFormatCheck [none, none, none]
        [some GoError.errCorruptedFormat, some GoError.errCorruptedFormat, none] =
      GoResult.err GoError.errCorruptedFormat := by
  decide

/-- C7 counterexample: a manifest that reads back but fails to decode makes
the Per-Endpoint Loader return the raw decoder error, not the Corrupted
taxon. -/
theorem c7_counterexample :
    loadFormat testUnmarshal ⟨.ok "garbage", .ok []⟩ =
      .error (GoError.unmarshalTypeError "invalid character") ∧
    GoError.unmarshalTypeError "invalid character" ≠ GoError.errCorruptedFormat := by
  decide

/-- C8 counterexample: a fleet of two present manifests carrying the same
identity "x" passes the Consistency Checker, yet the Reorderer succeeds with
an output that is not a permutation of the input endpoints: endpoint 10 is
lost and a slot is left empty. -/
theorem c8_counterexample :
    checkFormatXL [some c8cfg, some c8cfg] = GoResult.ok () ∧
    reorderDisks [(10 : Nat), 20] [some c8cfg, some c8cfg] = GoResult.ok [some 20, none] ∧
    some (10 : Nat) ∉ [some (20 : Nat), none] := by
  decide

/-- C10 counterexample: on a present manifest with backend kind "xl" and an
absent xl section, the Consistency Checker nil-dereferences (panics) instead
of returning an error. -/
theorem c10_counterexample :
    checkFormatXL [some c10cfg] = GoResult.panicked ∧
    checkDisksConsistency [some c10cfg] = GoResult.panicked := by
  decide

/-- Inversion of `goBind` on a successful result. -/
theorem goBind_eq_ok {α β : Type} {r : GoResult α} {f : α → GoResult β} {b : β}
    (h : goBind r f = .ok b) : ∃ a, r = .ok a ∧ f a = .ok b := by
  cases r with
  | ok a => exact ⟨a, rfl, h⟩
  | err e => simp [goBind] at h
  | panicked => simp [goBind] at h

/-- C5 amended: over an error vector of length N the Error Reducer returns
AllUnformatted iff every entry is Unformatted; otherwise SomeUnformatted iff
no entry is Unreachable (even when no entry at all is Unformatted, and
whatever the remaining entries are); otherwise SomeUnformattedAndSomeOffline;
it never returns None. -/
theorem c5_reduce_characterization (errs : List (Option GoError)) (diskCount : Nat)
    (hlen : errs.length = diskCount) :
    (reduceFormatErrs errs diskCount = some GoError.errUnformattedDisk ↔
      errs.count (some GoError.errUnformattedDisk) = diskCount) ∧
    (errs.count (some GoError.errUnformattedDisk) = diskCount ↔
      ∀ e ∈ errs, e = some GoError.errUnformattedDisk) ∧
    (errs.count (some GoError.errUnformattedDisk) ≠ diskCount →
      (reduceFormatErrs errs diskCount = some GoError.errSomeDiskUnformatted ↔
        errs.count (some GoError.errDiskNotFound) = 0)) ∧
    (errs.count (some GoError.errUnformattedDisk) ≠ diskCount →
      (reduceFormatErrs errs diskCount = some GoError.errSomeDiskOffline ↔
        0 < errs.count (some GoError.errDiskNotFound))) ∧
    reduceFormatErrs errs diskCount ≠ none := by
  have hle : errs.count (some GoError.errUnformattedDisk) ≤ diskCount := by
    rw [← hlen]; exact List.count_le_length _ _
  have hall : errs.count (some GoError.errUnformattedDisk) = diskCount ↔
      ∀ e ∈ errs, e = some GoError.errUnformattedDisk := by
    rw [← hlen, List.count_eq_length]
    constructor
    · intro h e he; exact (h e he).symm
    · intro h e he; exact (h e he).symm
  have key : reduceFormatErrs errs diskCount =
      if errs.count (some GoError.errUnformattedDisk) = diskCount then
        some GoError.errUnformattedDisk
      else if errs.count (some GoError.errUnformattedDisk) < diskCount ∧
          errs.count (some GoError.errDiskNotFound) = 0 then
        some GoError.errSomeDiskUnformatted
      else if errs.count (some GoError.errUnformattedDisk) < diskCount ∧
          errs.count (some GoError.errDiskNotFound) > 0 then
        some GoError.errSomeDiskOffline
      else none := rfl
  by_cases hu : errs.count (some GoError.errUnformattedDisk) = diskCount
  · rw [key, if_pos hu]
    exact ⟨iff_of_true rfl hu, hall, fun h => absurd hu h, fun h => absurd hu h, by simp⟩
  · have hlt : errs.count (some GoError.errUnformattedDisk) < diskCount := by omega
    by_cases hd : errs.count (some GoError.errDiskNotFound) = 0
    · rw [key, if_neg hu, if_pos (And.intro hlt hd)]
      refine ⟨iff_of_false (by simp) hu, hall, fun _ => iff_of_true rfl hd,
        fun _ => iff_of_false (by simp) (by omega), by simp⟩
    · have hdpos : 0 < errs.count (some GoError.errDiskNotFound) := by omega
      rw [key, if_neg hu, if_neg (by intro hc; exact hd hc.2),
        if_pos (And.intro hlt hdpos)]
      refine ⟨iff_of_false (by simp) hu, hall, fun _ => iff_of_false (by simp) hd,
        fun _ => iff_of_true rfl hdpos, by simp⟩

/-- C5 witness: concrete two-endpoint vector, one entry Unreachable. -/
theorem c5_witness :
    reduceFormatErrs [none, some GoError.errDiskNotFound] 2 = some GoError.errSomeDiskOffline :=
  ((c5_reduce_characterization [none, some GoError.errDiskNotFound] 2
    (by decide)).2.2.2.1 (by decide)).mpr (by decide)

/-- C7 amended: when the manifest file reads back but the payload fails to
decode, the Per-Endpoint Loader passes the raw decoder error through
unchanged; a decode error is not the Corrupted taxon, and the Generic Fleet
Gate counts it into errCount (isOtherErr), not into corruptCount. -/
theorem c7_loader_passthrough (unmarshal : String → Except GoError formatConfigV1)
    (disk : StorageAPI) (buffer : String) (e : GoError)
    (hread : disk.readAllResult = .ok buffer)
    (hdec : unmarshal buffer = .error e) :
    loadFormat unmarshal disk = .error e ∧
    (∀ msg, isOtherErr (some (GoError.unmarshalTypeError msg)) = true) ∧
    (∀ msg, GoError.unmarshalTypeError msg ≠ GoError.errCorruptedFormat) := by
  refine ⟨?_, fun msg => rfl, fun msg h => by cases h⟩
  unfold loadFormat
  rw [hread]
  exact hdec

/-- C7 witness: a concrete endpoint with an undecodable payload. -/
theorem c7_witness :
    loadFormat testUnmarshal ⟨Except.ok "zzz", Except.ok []⟩ =
      Except.error (GoError.unmarshalTypeError "invalid character") :=
  (c7_loader_passthrough testUnmarshal ⟨Except.ok "zzz", Except.ok []⟩ "zzz"
    (GoError.unmarshalTypeError "invalid character") rfl (by decide)).1

/-- Inversion of `goBind` on an error result. -/
theorem goBind_eq_err {α β : Type} {r : GoResult α} {f : α → GoResult β} {e : GoError}
    (h : goBind r f = .err e) : r = .err e ∨ ∃ a, r = .ok a ∧ f a = .err e := by
  cases r with
  | ok a => exact Or.inr ⟨a, rfl, h⟩
  | err e2 => left; cases h; rfl
  | panicked => simp [goBind] at h

/-- isSavedUUIDInOrder never returns an error value. -/
theorem isSavedUUIDInOrderAux_no_err (uuid : String) :
    ∀ (cfgs : List (Option formatConfigV1)) (acc : List Int) (e : GoError),
      isSavedUUIDInOrderAux uuid acc cfgs ≠ .err e := by
  intro cfgs
  induction cfgs with
  | nil =>
    intro acc e h
    rw [isSavedUUIDInOrderAux] at h
    cases acc <;> simp [checkOrderIndexes] at h
  | cons c rest ih =>
    intro acc e h
    cases c with
    | none => exact ih acc e h
    | some f =>
      rw [isSavedUUIDInOrderAux] at h
      repeat' split at h
      all_goals first
        | simp at h
        | exact ih _ e h

/-- checkDisksLoop only fails with an errors.New/fmt.Errorf string error. -/
theorem checkDisksLoop_err (formatConfigs : List (Option formatConfigV1)) :
    ∀ (ds : List String) (e : GoError),
      checkDisksLoop formatConfigs ds = .err e → ∃ msg, e = .goErr msg := by
  intro ds
  induction ds with
  | nil => intro e h; simp [checkDisksLoop] at h
  | cons uuid rest ih =>
    intro e h
    rw [checkDisksLoop] at h
    repeat' split at h
    all_goals first
      | exact ih e h
      | exact ⟨_, (GoResult.err.inj h).symm⟩
      | exact ⟨_, h.symm⟩
      | (rename_i heq; exact absurd heq (isSavedUUIDInOrderAux_no_err _ _ _ _))
      | simp at h

/-- collectDisks never returns an error value. -/
theorem collectDisks_no_err :
    ∀ (cfgs : List (Option formatConfigV1)) (e : GoError),
      collectDisks cfgs ≠ .err e := by
  intro cfgs
  induction cfgs with
  | nil => intro e h; simp [collectDisks] at h
  | cons c rest ih =>
    intro e h
    cases c with
    | none =>
      rw [collectDisks] at h
      rcases goBind_eq_err h with h2 | ⟨a, _, h3⟩
      · exact ih e h2
      · simp at h3
    | some f =>
      rw [collectDisks] at h
      split at h
      · simp at h
      · rcases goBind_eq_err h with h2 | ⟨a, _, h3⟩
        · exact ih e h2
        · simp at h3

/-- checkDisksConsistency only fails with a string error. -/
theorem checkDisksConsistency_err (cfgs : List (Option formatConfigV1)) (e : GoError)
    (h : checkDisksConsistency cfgs = .err e) : ∃ msg, e = .goErr msg := by
  rcases goBind_eq_err h with h2 | ⟨ds, _, h3⟩
  · exact absurd h2 (collectDisks_no_err cfgs e)
  · exact checkDisksLoop_err cfgs ds e h3

/-- firstJBODStr never returns an error value. -/
theorem firstJBODStr_no_err :
    ∀ (cfgs : List (Option formatConfigV1)) (e : GoError), firstJBODStr cfgs ≠ .err e := by
  intro cfgs
  induction cfgs with
  | nil => intro e h; simp [firstJBODStr] at h
  | cons c rest ih =>
    intro e h
    cases c with
    | none => exact ih e h
    | some f =>
      rw [firstJBODStr] at h
      split at h <;> simp at h

/-- checkJBODLoop only fails with a string error. -/
theorem checkJBODLoop_err (jbodStr : String) :
    ∀ (cfgs : List (Option formatConfigV1)) (e : GoError),
      checkJBODLoop jbodStr cfgs = .err e → ∃ msg, e = .goErr msg := by
  intro cfgs
  induction cfgs with
  | nil => intro e h; simp [checkJBODLoop] at h
  | cons c rest ih =>
    intro e h
    cases c with
    | none => exact ih e h
    | some f =>
      rw [checkJBODLoop] at h
      repeat' split at h
      all_goals first
        | exact ih e h
        | exact ⟨_, (GoResult.err.inj h).symm⟩
        | exact ⟨_, h.symm⟩
        | simp at h

/-- checkJBODConsistency only fails with a string error. -/
theorem checkJBODConsistency_err (cfgs : List (Option formatConfigV1)) (e : GoError)
    (h : checkJBODConsistency cfgs = .err e) : ∃ msg, e = .goErr msg := by
  rcases goBind_eq_err h with h2 | ⟨s, _, h3⟩
  · exact absurd h2 (firstJBODStr_no_err cfgs e)
  · exact checkJBODLoop_err s cfgs e h3

/-- checkFormatLoop only fails with a string error. -/
theorem checkFormatLoop_err (n : Nat) :
    ∀ (cfgs : List (Option formatConfigV1)) (e : GoError),
      checkFormatLoop n cfgs = .err e → ∃ msg, e = .goErr msg := by
  intro cfgs
  induction cfgs with
  | nil => intro e h; simp [checkFormatLoop] at h
  | cons c rest ih =>
    intro e h
    cases c with
    | none => exact ih e h
    | some f =>
      rw [checkFormatLoop] at h
      repeat' split at h
      all_goals first
        | exact ih e h
        | exact ⟨_, (GoResult.err.inj h).symm⟩
        | exact ⟨_, h.symm⟩
        | simp at h

/-- checkFormatXL only fails with a string error: never with one of the
sentinel errors such as errXLReadQuorum or errCorruptedFormat. -/
theorem checkFormatXL_err (cfgs : List (Option formatConfigV1)) (e : GoError)
    (h : checkFormatXL cfgs = .err e) : ∃ msg, e = .goErr msg := by
  rcases goBind_eq_err h with h2 | ⟨a, _, h3⟩
  · exact checkFormatLoop_err _ cfgs e h2
  · rcases goBind_eq_err h3 with h4 | ⟨b, _, h5⟩
    · exact checkJBODConsistency_err cfgs e h4
    · exact checkDisksConsistency_err cfgs e h5

/-- firstSavedJBOD never returns an error value. -/
theorem firstSavedJBOD_no_err :
    ∀ (cfgs : List (Option formatConfigV1)) (e : GoError), firstSavedJBOD cfgs ≠ .err e := by
  intro cfgs
  induction cfgs with
  | nil => intro e h; simp [firstSavedJBOD] at h
  | cons c rest ih =>
    intro e h
    cases c with
    | none => exact ih e h
    | some f =>
      rw [firstSavedJBOD] at h
      split at h <;> simp at h

/-- reorderLoop only fails with a string error. -/
theorem reorderLoop_err {α : Type} (bootstrapDisks : List α) (savedJBOD : List String) :
    ∀ (cfgs : List (Option formatConfigV1)) (fIndex : Nat) (acc : List (Option α)) (e : GoError),
      reorderLoop bootstrapDisks savedJBOD fIndex acc cfgs = .err e → ∃ msg, e = .goErr msg := by
  intro cfgs
  induction cfgs with
  | nil => intro fIndex acc e h; simp [reorderLoop] at h
  | cons c rest ih =>
    intro fIndex acc e h
    cases c with
    | none => exact ih _ _ e h
    | some f =>
      rw [reorderLoop] at h
      repeat' split at h
      all_goals first
        | exact ih _ _ e h
        | exact ⟨_, (GoResult.err.inj h).symm⟩
        | exact ⟨_, h.symm⟩
        | simp at h

/-- reorderDisks only fails with a string error. -/
theorem reorderDisks_err {α : Type} (bootstrapDisks : List α)
    (cfgs : List (Option formatConfigV1)) (e : GoError)
    (h : reorderDisks bootstrapDisks cfgs = .err e) : ∃ msg, e = .goErr msg := by
  rcases goBind_eq_err h with h2 | ⟨s, _, h3⟩
  · exact absurd h2 (firstSavedJBOD_no_err cfgs e)
  · exact reorderLoop_err bootstrapDisks s cfgs 0 _ e h3

/-- C6 amended: in the Generic Fleet Gate, errCount counts the entries that
are neither absent nor Unformatted nor volume-not-found nor Corrupted
(Corrupted entries are counted separately, into corruptCount); the gate fails
with NoReadQuorum exactly when errCount > N − Q with Q = ⌊N/2⌋ + 1, this
check coming before the corruptCount > 0 check; below the quorum threshold it
fails with Corrupted iff corruptCount > 0, and otherwise hands over to the
Consistency Checker. -/
theorem c6_gate_characterization (formatConfigs : List (Option formatConfigV1))
    (sErrs : List (Option GoError)) :
    isOtherErr (some GoError.errCorruptedFormat) = false ∧
    (genericFormatCheck formatConfigs sErrs = .err .errXLReadQuorum ↔
      ((sErrs.filter isOtherErr).length : Int) >
        (formatConfigs.length : Int) - ((formatConfigs.length / 2 + 1 : Nat) : Int)) ∧
    (¬(((sErrs.filter isOtherErr).length : Int) >
        (formatConfigs.length : Int) - ((formatConfigs.length / 2 + 1 : Nat) : Int)) →
      (genericFormatCheck formatConfigs sErrs = .err .errCorruptedFormat ↔
        0 < sErrs.count (some GoError.errCorruptedFormat))) ∧
    (¬(((sErrs.filter isOtherErr).length : Int) >
        (formatConfigs.length : Int) - ((formatConfigs.length / 2 + 1 : Nat) : Int)) →
      sErrs.count (some GoError.errCorruptedFormat) = 0 →
      genericFormatCheck formatConfigs sErrs = checkFormatXL formatConfigs) := by
  have key : genericFormatCheck formatConfigs sErrs =
      if ((sErrs.filter isOtherErr).length : Int) >
          (formatConfigs.length : Int) - ((formatConfigs.length / 2 + 1 : Nat) : Int) then
        .err .errXLReadQuorum
      else if 0 < sErrs.count (some GoError.errCorruptedFormat) then
        .err .errCorruptedFormat
      else checkFormatXL formatConfigs := rfl
  by_cases hq : ((sErrs.filter isOtherErr).length : Int) >
      (formatConfigs.length : Int) - ((formatConfigs.length / 2 + 1 : Nat) : Int)
  · rw [key, if_pos hq]
    exact ⟨rfl, iff_of_true rfl hq, fun h => absurd hq h, fun h => absurd hq h⟩
  · by_cases hc : 0 < sErrs.count (some GoError.errCorruptedFormat)
    · rw [key, if_neg hq, if_pos hc]
      exact ⟨rfl, iff_of_false (by simp) hq, fun _ => iff_of_true rfl hc,
        fun _ hc0 => absurd hc (by omega)⟩
    · rw [key, if_neg hq, if_neg hc]
      have hne : checkFormatXL formatConfigs ≠ .err .errXLReadQuorum := by
        intro hcon
        rcases checkFormatXL_err _ _ hcon with ⟨msg, hmsg⟩
        cases hmsg
      have hne2 : checkFormatXL formatConfigs ≠ .err .errCorruptedFormat := by
        intro hcon
        rcases checkFormatXL_err _ _ hcon with ⟨msg, hmsg⟩
        cases hmsg
      exact ⟨rfl, iff_of_false hne hq, fun _ => iff_of_false hne2 hc, fun _ _ => rfl⟩

/-- C6 witness: one endpoint, one unreachable entry, quorum violated. -/
theorem c6_witness :
    genericFormatCheck [none] [some GoError.errDiskNotFound] = .err .errXLReadQuorum :=
  ((c6_gate_characterization [none] [some GoError.errDiskNotFound]).2.1).mpr (by decide)

/-- C3: for a fleet of N ≥ 1 bootstrap endpoints whose load phase classified u
endpoints Unformatted and d Unreachable (no other load error), the Mount
procedure returns Unformatted iff u = N; otherwise Unreachable iff d = N;
otherwise NoReadQuorum iff d > N − Q or u > N − Q with Q = ⌊N/2⌋ + 1; and
otherwise it proceeds to the Consistency Checker and the Reorderer. -/
theorem c3_loadFormatXL_quorum (unmarshal : String → Except GoError formatConfigV1)
    (bootstrapDisks : List StorageAPI)
    (configs : List (Option formatConfigV1)) (u d : Nat)
    (hN : 1 ≤ bootstrapDisks.length)
    (hload : loadXLLoop unmarshal bootstrapDisks = .ok (configs, u, d)) :
    (loadFormatXL unmarshal bootstrapDisks = .err .errUnformattedDisk ↔
      u = bootstrapDisks.length) ∧
    (loadFormatXL unmarshal bootstrapDisks = .err .errDiskNotFound ↔
      (u ≠ bootstrapDisks.length ∧ d = bootstrapDisks.length)) ∧
    (loadFormatXL unmarshal bootstrapDisks = .err .errXLReadQuorum ↔
      (u ≠ bootstrapDisks.length ∧ d ≠ bootstrapDisks.length ∧
        (bootstrapDisks.length - (bootstrapDisks.length / 2 + 1) < d ∨
         bootstrapDisks.length - (bootstrapDisks.length / 2 + 1) < u))) ∧
    ((u ≠ bootstrapDisks.length ∧ d ≠ bootstrapDisks.length ∧
        d ≤ bootstrapDisks.length - (bootstrapDisks.length / 2 + 1) ∧
        u ≤ bootstrapDisks.length - (bootstrapDisks.length / 2 + 1)) →
      loadFormatXL unmarshal bootstrapDisks =
        goBind (checkFormatXL configs) (fun _ => reorderDisks bootstrapDisks configs)) := by
  have hq : bootstrapDisks.length / 2 + 1 ≤ bootstrapDisks.length := by omega
  have key : loadFormatXL unmarshal bootstrapDisks =
      (if u = bootstrapDisks.length then .err .errUnformattedDisk
       else if d = bootstrapDisks.length then .err .errDiskNotFound
       else if (d : Int) > (bootstrapDisks.length : Int) -
           ((bootstrapDisks.length / 2 + 1 : Nat) : Int) then .err .errXLReadQuorum
       else if (u : Int) > (bootstrapDisks.length : Int) -
           ((bootstrapDisks.length / 2 + 1 : Nat) : Int) then .err .errXLReadQuorum
       else goBind (checkFormatXL configs) (fun _ => reorderDisks bootstrapDisks configs)) := by
    unfold loadFormatXL
    rw [hload]
  by_cases hu : u = bootstrapDisks.length
  · rw [key, if_pos hu]
    exact ⟨iff_of_true rfl hu, iff_of_false (by simp) (fun hc => hc.1 hu),
      iff_of_false (by simp) (fun hc => hc.1 hu), fun hc => absurd hu hc.1⟩
  · by_cases hd : d = bootstrapDisks.length
    · rw [key, if_neg hu, if_pos hd]
      exact ⟨iff_of_false (by simp) hu, iff_of_true rfl ⟨hu, hd⟩,
        iff_of_false (by simp) (fun hc => hc.2.1 hd), fun hc => absurd hd hc.2.1⟩
    · by_cases hdq : (d : Int) > (bootstrapDisks.length : Int) -
          ((bootstrapDisks.length / 2 + 1 : Nat) : Int)
      · rw [key, if_neg hu, if_neg hd, if_pos hdq]
        refine ⟨iff_of_false (by simp) hu, iff_of_false (by simp) (fun hc => hd hc.2),
          iff_of_true rfl ⟨hu, hd, Or.inl (by omega)⟩, fun hc => ?_⟩
        exact absurd hc.2.2.1 (by omega)
      · by_cases huq : (u : Int) > (bootstrapDisks.length : Int) -
            ((bootstrapDisks.length / 2 + 1 : Nat) : Int)
        · rw [key, if_neg hu, if_neg hd, if_neg hdq, if_pos huq]
          refine ⟨iff_of_false (by simp) hu, iff_of_false (by simp) (fun hc => hd hc.2),
            iff_of_true rfl ⟨hu, hd, Or.inr (by omega)⟩, fun hc => ?_⟩
          exact absurd hc.2.2.2 (by omega)
        · rw [key, if_neg hu, if_neg hd, if_neg hdq, if_neg huq]
          have hshape : ∀ e, goBind (checkFormatXL configs)
              (fun _ => reorderDisks bootstrapDisks configs) = .err e →
              ∃ msg, e = .goErr msg := by
            intro e he
            rcases goBind_eq_err he with h1 | ⟨a, _, h2⟩
            · exact checkFormatXL_err _ _ h1
            · exact reorderDisks_err _ _ _ h2
          have hne : ∀ e, goBind (checkFormatXL configs)
              (fun _ => reorderDisks bootstrapDisks configs) ≠ .err e ∨ ∃ msg, e = .goErr msg :=
            fun e => by
              by_cases hcon : goBind (checkFormatXL configs)
                  (fun _ => reorderDisks bootstrapDisks configs) = .err e
              · exact Or.inr (hshape e hcon)
              · exact Or.inl hcon
          refine ⟨iff_of_false ?_ hu, iff_of_false ?_ (fun hc => hd hc.2),
            iff_of_false ?_ (fun hc => ?_), fun _ => rfl⟩
          · intro hcon
            rcases hshape _ hcon with ⟨msg, hm⟩
            cases hm
          · intro hcon
            rcases hshape _ hcon with ⟨msg, hm⟩
            cases hm
          · intro hcon
            rcases hshape _ hcon with ⟨msg, hm⟩
            cases hm
          · rcases hc.2.2 with h | h
            · exact absurd h (by omega)
            · exact absurd h (by omega)

/-- C3 witness: three endpoints with one manifest present, one fresh and one
unreachable; exactly N − Q = 1 unreachable, so the mount proceeds to the
Consistency Checker and Reorderer. -/
theorem c3_witness :
    loadFormatXL testUnmarshal [diskA, diskFresh, diskOffline] =
      goBind (checkFormatXL [some cfgA, none, none])
        (fun _ => reorderDisks [diskA, diskFresh, diskOffline] [some cfgA, none, none]) :=
  (c3_loadFormatXL_quorum testUnmarshal [diskA, diskFresh, diskOffline]
    [some cfgA, none, none] 1 1 (by decide) (by decide)).2.2.2 (by decide)

/-- Heal load loop returns its early-nil outcome as soon as it meets an
unreachable endpoint, provided every endpoint before it loads as present or
as absent-fresh. -/
theorem healLoadLoop_earlyOk (unmarshal : String → Except GoError formatConfigV1) :
    ∀ (pre : List StorageAPI) (post : List StorageAPI) (dBad : StorageAPI),
      (∀ disk ∈ pre, (∃ f, loadFormat unmarshal disk = .ok f) ∨
        loadFormat unmarshal disk = .error .errUnformattedDisk) →
      loadFormat unmarshal dBad = .error .errDiskNotFound →
      healLoadLoop unmarshal (pre ++ dBad :: post) = .earlyOk := by
  intro pre
  induction pre with
  | nil =>
    intro post dBad hpre hbad
    rw [List.nil_append, healLoadLoop, hbad]
  | cons disk rest ih =>
    intro post dBad hpre hbad
    have hdisk := hpre disk (List.mem_cons_self _ _)
    have hrest := ih post dBad (fun d hd => hpre d (List.mem_cons_of_mem _ hd)) hbad
    rw [List.cons_append, healLoadLoop]
    rcases hdisk with ⟨f, hf⟩ | hf
    · rw [hf, hrest]
    · rw [hf, hrest]

/-- C1 amended: the Healer takes no force permission at all; for every fleet
in which some endpoint is Unreachable and every endpoint loaded before it is
either present or absent-fresh, the Healer returns success having written
nothing — it skips healing entirely instead of failing with a NeedsForce
error, and unreachable slots never receive freshly minted identities. -/
theorem c1_heal_skips_unreachable (unmarshal : String → Except GoError formatConfigV1)
    (uuids : Nat → String) (pre post : List StorageAPI) (dBad : StorageAPI)
    (hpre : ∀ disk ∈ pre, (∃ f, loadFormat unmarshal disk = .ok f) ∨
      loadFormat unmarshal disk = .error .errUnformattedDisk)
    (hbad : loadFormat unmarshal dBad = .error .errDiskNotFound) :
    healFormatXL unmarshal uuids (pre ++ dBad :: post) = HealOutcome.noHeal := by
  unfold healFormatXL
  rw [healLoadLoop_earlyOk unmarshal pre post dBad hpre hbad]

/-- C1 witness: one present manifest, then an unreachable endpoint, then a
fresh endpoint; the Healer writes nothing and reports success. -/
theorem c1_witness :
    healFormatXL testUnmarshal testUuids ([diskA] ++ diskOffline :: [diskFresh]) =
      HealOutcome.noHeal :=
  c1_heal_skips_unreachable testUnmarshal testUuids [diskA] [diskFresh] diskOffline
    (by
      intro d hd
      simp only [List.mem_singleton] at hd
      subst hd
      exact Or.inl ⟨cfgA, by decide⟩)
    (by decide)

/-- Inversion of `goBind` on a panic. -/
theorem goBind_eq_panicked {α β : Type} {r : GoResult α} {f : α → GoResult β}
    (h : goBind r f = .panicked) : r = .panicked ∨ ∃ a, r = .ok a ∧ f a = .panicked := by
  cases r with
  | ok a => exact Or.inr ⟨a, rfl, h⟩
  | err e => simp [goBind] at h
  | panicked => exact Or.inl rfl

/-- checkFormatLoop never panics when every present config has an xl section. -/
theorem checkFormatLoop_no_panic (n : Nat) :
    ∀ (cfgs : List (Option formatConfigV1)),
      (∀ f, some f ∈ cfgs → (f.XL).isSome) →
      checkFormatLoop n cfgs ≠ .panicked := by
  intro cfgs
  induction cfgs with
  | nil => intro hXL h; simp [checkFormatLoop] at h
  | cons c rest ih =>
    intro hXL h
    cases c with
    | none => exact ih (fun f hf => hXL f (List.mem_cons_of_mem _ hf)) h
    | some f =>
      rw [checkFormatLoop] at h
      repeat' split at h
      all_goals first
        | (rename_i heq
           have hXLf := hXL f (List.mem_cons_self _ _)
           rw [heq] at hXLf
           simp at hXLf)
        | exact ih (fun g hg => hXL g (List.mem_cons_of_mem _ hg)) h
        | simp at h

/-- isSavedUUIDInOrder's loop never panics when every present config has an
xl section and either positions were already collected or some config is
present. -/
theorem isSavedUUIDInOrderAux_no_panic (uuid : String) :
    ∀ (cfgs : List (Option formatConfigV1)) (acc : List Int),
      (∀ f, some f ∈ cfgs → (f.XL).isSome) →
      (acc ≠ [] ∨ ∃ f, some f ∈ cfgs) →
      isSavedUUIDInOrderAux uuid acc cfgs ≠ .panicked := by
  intro cfgs
  induction cfgs with
  | nil =>
    intro acc hXL hne h
    rw [isSavedUUIDInOrderAux] at h
    rcases hne with hne | ⟨f, hf⟩
    · cases acc with
      | nil => exact hne rfl
      | cons a rest => simp [checkOrderIndexes] at h
    · simp at hf
  | cons c rest ih =>
    intro acc hXL hne h
    cases c with
    | none =>
      refine ih acc (fun f hf => hXL f (List.mem_cons_of_mem _ hf)) ?_ h
      rcases hne with hne | ⟨f, hf⟩
      · exact Or.inl hne
      · rcases List.mem_cons.mp hf with heq | hmem
        · cases heq
        · exact Or.inr ⟨f, hmem⟩
    | some g =>
      rw [isSavedUUIDInOrderAux] at h
      split at h
      · rename_i heq
        have hg := hXL g (List.mem_cons_self _ _)
        rw [heq] at hg
        simp at hg
      · split at h
        · simp at h
        · exact ih _ (fun f hf => hXL f (List.mem_cons_of_mem _ hf)) (Or.inl (by simp)) h

/-- collectDisks succeeds when every present config has an xl section, and
every nonempty uuid it returns comes from a present config. -/
theorem collectDisks_ok :
    ∀ (cfgs : List (Option formatConfigV1)),
      (∀ f, some f ∈ cfgs → (f.XL).isSome) →
      ∃ ds, collectDisks cfgs = .ok ds ∧
        (∀ u ∈ ds, u ≠ "" → ∃ f, some f ∈ cfgs) := by
  intro cfgs
  induction cfgs with
  | nil => exact fun _ => ⟨[], rfl, by simp⟩
  | cons c rest ih =>
    intro hXL
    rcases ih (fun f hf => hXL f (List.mem_cons_of_mem _ hf)) with ⟨ds, hds, hmem⟩
    cases c with
    | none =>
      refine ⟨"" :: ds, ?_, ?_⟩
      · rw [collectDisks, hds]
        rfl
      · intro u hu hne
        rcases List.mem_cons.mp hu with rfl | hmem2
        · exact absurd rfl hne
        · rcases hmem u hmem2 hne with ⟨f, hf⟩
          exact ⟨f, List.mem_cons_of_mem _ hf⟩
    | some g =>
      have hg := hXL g (List.mem_cons_self _ _)
      rcases hgx : g.XL with _ | xl
      · rw [hgx] at hg; simp at hg
      · refine ⟨xl.Disk :: ds, ?_, ?_⟩
        · rw [collectDisks, hgx, hds]
          rfl
        · intro u hu hne
          rcases List.mem_cons.mp hu with rfl | hmem2
          · exact ⟨g, List.mem_cons_self _ _⟩
          · rcases hmem u hmem2 hne with ⟨f, hf⟩
            exact ⟨f, List.mem_cons_of_mem _ hf⟩

/-- checkDisksConsistency's uuid loop never panics when every present config
has an xl section and every nonempty uuid has a present source config. -/
theorem checkDisksLoop_no_panic (cfgs : List (Option formatConfigV1)) :
    ∀ (ds : List String),
      (∀ f, some f ∈ cfgs → (f.XL).isSome) →
      (∀ u ∈ ds, u ≠ "" → ∃ f, some f ∈ cfgs) →
      checkDisksLoop cfgs ds ≠ .panicked := by
  intro ds
  induction ds with
  | nil => intro _ _ h; simp [checkDisksLoop] at h
  | cons u rest ih =>
    intro hXL hsrc h
    rw [checkDisksLoop] at h
    split at h
    · exact ih hXL (fun v hv => hsrc v (List.mem_cons_of_mem _ hv)) h
    · rename_i hne
      split at h
      · exact ih hXL (fun v hv => hsrc v (List.mem_cons_of_mem _ hv)) h
      · simp at h
      · simp at h
      · rename_i heq
        exact absurd heq (isSavedUUIDInOrderAux_no_panic u cfgs [] hXL
          (Or.inr (hsrc u (List.mem_cons_self _ _) hne)))

/-- checkDisksConsistency never panics when every present config has an xl
section. -/
theorem checkDisksConsistency_no_panic (cfgs : List (Option formatConfigV1))
    (hXL : ∀ f, some f ∈ cfgs → (f.XL).isSome) :
    checkDisksConsistency cfgs ≠ .panicked := by
  intro h
  rcases collectDisks_ok cfgs hXL with ⟨ds, hds, hmem⟩
  rw [checkDisksConsistency, hds] at h
  exact checkDisksLoop_no_panic cfgs ds hXL hmem h

/-- firstJBODStr never panics when every present config has an xl section. -/
theorem firstJBODStr_no_panic :
    ∀ (cfgs : List (Option formatConfigV1)),
      (∀ f, some f ∈ cfgs → (f.XL).isSome) →
      firstJBODStr cfgs ≠ .panicked := by
  intro cfgs
  induction cfgs with
  | nil => intro _ h; simp [firstJBODStr] at h
  | cons c rest ih =>
    intro hXL h
    cases c with
    | none => exact ih (fun f hf => hXL f (List.mem_cons_of_mem _ hf)) h
    | some g =>
      rw [firstJBODStr] at h
      split at h
      · rename_i heq
        have hg := hXL g (List.mem_cons_self _ _)
        rw [heq] at hg
        simp at hg
      · simp at h

/-- checkJBODConsistency's comparison loop never panics when every present
config has an xl section. -/
theorem checkJBODLoop_no_panic (jbodStr : String) :
    ∀ (cfgs : List (Option formatConfigV1)),
      (∀ f, some f ∈ cfgs → (f.XL).isSome) →
      checkJBODLoop jbodStr cfgs ≠ .panicked := by
  intro cfgs
  induction cfgs with
  | nil => intro _ h; simp [checkJBODLoop] at h
  | cons c rest ih =>
    intro hXL h
    cases c with
    | none => exact ih (fun f hf => hXL f (List.mem_cons_of_mem _ hf)) h
    | some g =>
      rw [checkJBODLoop] at h
      split at h
      · rename_i heq
        have hg := hXL g (List.mem_cons_self _ _)
        rw [heq] at hg
        simp at hg
      · split at h
        · simp at h
        · exact ih (fun f hf => hXL f (List.mem_cons_of_mem _ hf)) h

/-- checkJBODConsistency never panics when every present config has an xl
section. -/
theorem checkJBODConsistency_no_panic (cfgs : List (Option formatConfigV1))
    (hXL : ∀ f, some f ∈ cfgs → (f.XL).isSome) :
    checkJBODConsistency cfgs ≠ .panicked := by
  intro h
  rcases goBind_eq_panicked h with h1 | ⟨s, _, h2⟩
  · exact firstJBODStr_no_panic cfgs hXL h1
  · exact checkJBODLoop_no_panic s cfgs hXL h2

/-- C10 amended: the Consistency Checker is not total — on a present manifest
with backend kind "xl" and a nil xl section it nil-dereferences (the
counterexample) — but under the precondition that every present manifest has
a non-nil xl section, checkFormatXL and checkDisksConsistency never panic:
they return ok or an error. -/
theorem c10_checker_no_panic (cfgs : List (Option formatConfigV1))
    (hXL : ∀ f, some f ∈ cfgs → (f.XL).isSome) :
    checkFormatXL cfgs ≠ .panicked ∧ checkDisksConsistency cfgs ≠ .panicked := by
  refine ⟨?_, checkDisksConsistency_no_panic cfgs hXL⟩
  intro h
  rcases goBind_eq_panicked h with h1 | ⟨a, _, h2⟩
  · exact checkFormatLoop_no_panic _ cfgs hXL h1
  · rcases goBind_eq_panicked h2 with h3 | ⟨b, _, h4⟩
    · exact checkJBODConsistency_no_panic cfgs hXL h3
    · exact checkDisksConsistency_no_panic cfgs hXL h4

/-- C10 witness: a well-formed singleton fleet is checked without panic. -/
theorem c10_witness :
    checkFormatXL [some cfgA, none] ≠ .panicked ∧
    checkDisksConsistency [some cfgA, none] ≠ .panicked :=
  c10_checker_no_panic [some cfgA, none]
    (by
      intro f hf
      simp only [List.mem_cons] at hf
      rcases hf with hf | hf | hf
      · cases hf; decide
      · cases hf
      · simp at hf)

/-- initFormatXL's jbod loop on all-live disks mints one identity per slot in
index order, offset by the uuids already consumed. -/
theorem initJbod_map_some {α : Type} (uuids : Nat → String) :
    ∀ (l : List α) (k : Nat),
      initJbod uuids k (l.map some) = (List.range l.length).map (fun i => uuids (k + i)) := by
  intro l
  induction l with
  | nil => intro k; rfl
  | cons a rest ih =>
    intro k
    rw [List.map_cons, initJbod, ih (k + 1), List.length_cons, List.range_succ_eq_map,
      List.map_cons, List.map_map]
    have hfun : ∀ i ∈ List.range rest.length,
        uuids (k + 1 + i) = ((fun i => uuids (k + i)) ∘ Nat.succ) i :=
      fun i _ => congrArg uuids (by omega)
    rw [List.map_congr_left hfun]
    simp

/-- initFormatXL's assembly loop on all-live disks builds one fresh version-1
manifest per slot, carrying that slot's identity and the shared jbod. -/
theorem initAssemble_map_some {α : Type} (jbod : List String) :
    ∀ (l : List α) (js : List String), js.length = l.length →
      initAssemble jbod (l.map some) js =
        js.map (fun u => some ⟨"1", "xl", none, some ⟨"1", u, jbod⟩⟩) := by
  intro l
  induction l with
  | nil =>
    intro js hlen
    rw [List.length_eq_zero.mp hlen]
    rfl
  | cons a rest ih =>
    intro js hlen
    cases js with
    | nil => simp at hlen
    | cons u js2 =>
      rw [List.map_cons, initAssemble, ih js2 (by simpa using hlen), List.map_cons]

/-- C9: a successful Initializer run over N live endpoints publishes, at every
bootstrap index i, a manifest with schema version "1", backend kind "xl", xl
schema version "1", identity equal to the i-th freshly minted uuid, and an
xl.order equal to the sequence of minted identities in bootstrap order —
identical (same length N) across all manifests, with each endpoint's identity
sitting at its own bootstrap index of the order. -/
theorem c9_init_formats {α : Type} (disksReal : List α) (uuids : Nat → String) :
    initFormatXL uuids (disksReal.map some) =
      (List.range disksReal.length).map (fun i =>
        some ⟨"1", "xl", none,
          some ⟨"1", uuids i, (List.range disksReal.length).map uuids⟩⟩) ∧
    ((List.range disksReal.length).map uuids).length = disksReal.length ∧
    (∀ i, i < disksReal.length →
      ((List.range disksReal.length).map uuids)[i]? = some (uuids i)) := by
  have hjbod : initJbod uuids 0 (disksReal.map some) =
      (List.range disksReal.length).map uuids := by
    rw [initJbod_map_some]
    exact List.map_congr_left (fun i _ => congrArg uuids (by omega))
  have hdef : initFormatXL uuids (disksReal.map some) =
      initAssemble (initJbod uuids 0 (disksReal.map some)) (disksReal.map some)
        (initJbod uuids 0 (disksReal.map some)) := rfl
  refine ⟨?_, by simp, ?_⟩
  · rw [hdef, hjbod, initAssemble_map_some _ _ _ (by simp), List.map_map]
    rfl
  · intro i hi
    simp [List.getElem?_map, List.getElem?_range, hi]

/-- C9 witness: two endpoints, concrete uuid stream; both manifests carry
order ["u0", "u1"] and their own identity at their bootstrap index. -/
theorem c9_witness :
    initFormatXL testUuids ([(), ()].map some) =
      [some ⟨"1", "xl", none, some ⟨"1", "u0", ["u0", "u1"]⟩⟩,
       some ⟨"1", "xl", none, some ⟨"1", "u1", ["u0", "u1"]⟩⟩] ∧
    ((List.range 2).map testUuids)[0]? = some (testUuids 0) := by
  refine ⟨?_, (c9_init_formats ([(), ()] : List Unit) testUuids).2.2 0 (by decide)⟩
  rw [(c9_init_formats ([(), ()] : List Unit) testUuids).1]
  decide

/-- Strings with equal character data are equal. -/
theorem string_data_inj {s t : String} (h : s.data = t.data) : s = t := by
  cases s
  cases t
  exact congrArg String.mk h

/-- Character data of a string concatenation. -/
theorem string_data_append (s t : String) : (s ++ t).data = s.data ++ t.data := by
  cases s
  cases t
  rfl

/-- Splitting around the first separator: two separator-free prefixes followed
by the separator determine each other. -/
theorem sep_split : ∀ (a b x y : List Char), ('.' : Char) ∉ a → ('.' : Char) ∉ b →
    a ++ '.' :: x = b ++ '.' :: y → a = b ∧ x = y := by
  intro a
  induction a with
  | nil =>
    intro b x y _ hb h
    cases b with
    | nil => simpa using h
    | cons c bs =>
      simp only [List.nil_append, List.cons_append, List.cons.injEq] at h
      rw [← h.1] at hb
      exact absurd (List.mem_cons_self _ _) hb
  | cons c as ih =>
    intro b x y ha hb h
    cases b with
    | nil =>
      simp only [List.cons_append, List.nil_append, List.cons.injEq] at h
      rw [h.1] at ha
      exact absurd (List.mem_cons_self _ _) ha
    | cons c2 bs =>
      simp only [List.cons_append, List.cons.injEq] at h
      obtain ⟨h1, h2⟩ := ih bs x y (fun hm => ha (List.mem_cons_of_mem _ hm))
        (fun hm => hb (List.mem_cons_of_mem _ hm)) h.2
      exact ⟨by rw [h.1, h1], h2⟩

/-- strings.Join with "." is injective on equal-length lists of dot-free
strings. -/
theorem goJoin_dot_inj : ∀ (l1 l2 : List String), l1.length = l2.length →
    (∀ s ∈ l1, ('.' : Char) ∉ s.data) → (∀ s ∈ l2, ('.' : Char) ∉ s.data) →
    goJoin "." l1 = goJoin "." l2 → l1 = l2 := by
  intro l1
  induction l1 with
  | nil =>
    intro l2 hlen _ _ _
    rw [List.length_nil] at hlen
    exact (List.length_eq_zero.mp hlen.symm).symm
  | cons a as ih =>
    intro l2 hlen hd1 hd2 h
    cases l2 with
    | nil => simp at hlen
    | cons b bs =>
      cases as with
      | nil =>
        cases bs with
        | nil => rw [show goJoin "." [a] = a from rfl, show goJoin "." [b] = b from rfl] at h; rw [h]
        | cons b2 bs2 => simp at hlen
      | cons a2 as2 =>
        cases bs with
        | nil => simp at hlen
        | cons b2 bs2 =>
          have hjoin1 : goJoin "." (a :: a2 :: as2) = a ++ "." ++ goJoin "." (a2 :: as2) := rfl
          have hjoin2 : goJoin "." (b :: b2 :: bs2) = b ++ "." ++ goJoin "." (b2 :: bs2) := rfl
          have h2 : (a ++ "." ++ goJoin "." (a2 :: as2)).data =
              (b ++ "." ++ goJoin "." (b2 :: bs2)).data := by
            rw [← hjoin1, ← hjoin2]
            exact congrArg String.data h
          simp only [string_data_append, show ("." : String).data = ['.'] from rfl,
            List.append_assoc, List.singleton_append] at h2
          obtain ⟨hab, hrest⟩ := sep_split _ _ _ _ (hd1 a (List.mem_cons_self _ _))
            (hd2 b (List.mem_cons_self _ _)) h2
          have ha : a = b := string_data_inj hab
          have htail : a2 :: as2 = b2 :: bs2 :=
            ih (b2 :: bs2) (by simpa using hlen)
              (fun s hs => hd1 s (List.mem_cons_of_mem _ hs))
              (fun s hs => hd2 s (List.mem_cons_of_mem _ hs))
              (string_data_inj hrest)
          rw [ha, htail]

/-- checkJBODConsistency's loop pins every present config's '.'-joined order
to the reference join. -/
theorem checkJBODLoop_ok_join (jbodStr : String) :
    ∀ (cfgs : List (Option formatConfigV1)),
      checkJBODLoop jbodStr cfgs = .ok () →
      ∀ c, some c ∈ cfgs → ∀ xl, c.XL = some xl → goJoin "." xl.JBOD = jbodStr := by
  intro cfgs
  induction cfgs with
  | nil => intro _ c hc; simp at hc
  | cons c0 rest ih =>
    intro h c hc xl hxl
    cases c0 with
    | none =>
      rcases List.mem_cons.mp hc with heq | hmem
      · cases heq
      · exact ih h c hmem xl hxl
    | some g =>
      rw [checkJBODLoop] at h
      split at h
      · simp at h
      · rename_i xl0 hg
        split at h
        · simp at h
        · rename_i hcond
          rcases List.mem_cons.mp hc with heq | hmem
          · have hcg : c = g := by injection heq
            rw [hcg] at hxl
            rw [hxl] at hg
            have hxleq : xl = xl0 := by injection hg
            rw [hxleq]
            exact (not_ne_iff.mp hcond).symm
          · exact ih h c hmem xl hxl

/-- checkFormatXL's per-config loop pins every present config's order length
to the fleet size. -/
theorem checkFormatLoop_ok_len (n : Nat) :
    ∀ (cfgs : List (Option formatConfigV1)),
      checkFormatLoop n cfgs = .ok () →
      ∀ c, some c ∈ cfgs → ∀ xl, c.XL = some xl → xl.JBOD.length = n := by
  intro cfgs
  induction cfgs with
  | nil => intro _ c hc; simp at hc
  | cons c0 rest ih =>
    intro h c hc xl hxl
    cases c0 with
    | none =>
      rcases List.mem_cons.mp hc with heq | hmem
      · cases heq
      · exact ih h c hmem xl hxl
    | some g =>
      rw [checkFormatLoop] at h
      split at h
      · simp at h
      · split at h
        · simp at h
        · split at h
          · simp at h
          · rename_i xl0 hg
            split at h
            · simp at h
            · split at h
              · simp at h
              · rename_i hlen
                rcases List.mem_cons.mp hc with heq | hmem
                · have hcg : c = g := by injection heq
                  rw [hcg] at hxl
                  rw [hxl] at hg
                  have hxleq : xl = xl0 := by injection hg
                  rw [hxleq]
                  omega
                · exact ih h c hmem xl hxl

/-- C4 amended: any two present manifests accepted by the Consistency Checker
whose identities are all dot-free carry element-wise identical xl.order
lists (the checker pins equal '.'-joins and equal lengths, and the join is
injective on dot-free identity lists). -/
theorem c4_order_unique_of_dotfree (cfgs : List (Option formatConfigV1))
    (c1 c2 : formatConfigV1) (xl1 xl2 : xlFormat)
    (hchk : checkFormatXL cfgs = .ok ())
    (hm1 : some c1 ∈ cfgs) (hm2 : some c2 ∈ cfgs)
    (hx1 : c1.XL = some xl1) (hx2 : c2.XL = some xl2)
    (hdf1 : ∀ s ∈ xl1.JBOD, ('.' : Char) ∉ s.data)
    (hdf2 : ∀ s ∈ xl2.JBOD, ('.' : Char) ∉ s.data) :
    xl1.JBOD = xl2.JBOD := by
  rw [checkFormatXL] at hchk
  obtain ⟨a, h1, h2⟩ := goBind_eq_ok hchk
  cases a
  obtain ⟨b, h3, h4⟩ := goBind_eq_ok h2
  cases b
  obtain ⟨jbodStr, h5, h6⟩ := goBind_eq_ok h3
  have hl1 := checkFormatLoop_ok_len _ cfgs h1 c1 hm1 xl1 hx1
  have hl2 := checkFormatLoop_ok_len _ cfgs h1 c2 hm2 xl2 hx2
  have hj1 := checkJBODLoop_ok_join jbodStr cfgs h6 c1 hm1 xl1 hx1
  have hj2 := checkJBODLoop_ok_join jbodStr cfgs h6 c2 hm2 xl2 hx2
  exact goJoin_dot_inj xl1.JBOD xl2.JBOD (by rw [hl1, hl2]) hdf1 hdf2 (by rw [hj1, hj2])

/-- C4 witness: a well-formed two-endpoint fleet with dot-free identities;
the two accepted manifests carry the same order list. -/
theorem c4_witness : (⟨"1", "u", ["u", "v"]⟩ : xlFormat).JBOD =
    (⟨"1", "v", ["u", "v"]⟩ : xlFormat).JBOD :=
  c4_order_unique_of_dotfree [some cfgB1, some cfgB2] cfgB1 cfgB2
    ⟨"1", "u", ["u", "v"]⟩ ⟨"1", "v", ["u", "v"]⟩
    (by decide) (by decide) (by decide) (by decide) (by decide)
    (by decide) (by decide)

/-- findDiskIndex's loop either misses or reports an offset position holding
the disk. -/
theorem findDiskIndexAux_spec (disk : String) :
    ∀ (l : List String) (i : Nat),
      findDiskIndexAux disk l i = -1 ∨
      ∃ k : Nat, k < l.length ∧ findDiskIndexAux disk l i = ((i + k : Nat) : Int) ∧
        l[k]? = some disk := by
  intro l
  induction l with
  | nil => intro i; exact Or.inl rfl
  | cons u rest ih =>
    intro i
    rw [findDiskIndexAux]
    by_cases hu : u = disk
    · refine Or.inr ⟨0, by simp, ?_, ?_⟩
      · rw [if_pos hu]
        norm_num
      · rw [hu]
        simp
    · rw [if_neg hu]
      rcases ih (i + 1) with h | ⟨k, hk, hval, hget⟩
      · exact Or.inl h
      · refine Or.inr ⟨k + 1, by simpa using hk, ?_, by simpa using hget⟩
        rw [hval]
        congr 1
        omega

/-- A successful findDiskIndex points inside the list, at the disk. -/
theorem findDiskIndex_found (disk : String) (l : List String)
    (h : findDiskIndex disk l ≠ -1) :
    (findDiskIndex disk l).toNat < l.length ∧
      l[(findDiskIndex disk l).toNat]? = some disk := by
  rcases findDiskIndexAux_spec disk l 0 with h2 | ⟨k, hk, hval, hget⟩
  · exact absurd h2 h
  · rw [findDiskIndex, hval]
    simpa using ⟨hk, hget⟩

/-- A true isSavedUUIDInOrder verdict means the uuid was found in every
present config's order list. -/
theorem isSavedUUIDInOrderAux_ok_true_found (uuid : String) :
    ∀ (cfgs : List (Option formatConfigV1)) (acc : List Int),
      isSavedUUIDInOrderAux uuid acc cfgs = .ok true →
      ∀ c, some c ∈ cfgs → ∀ xl, c.XL = some xl → findDiskIndex uuid xl.JBOD ≠ -1 := by
  intro cfgs
  induction cfgs with
  | nil => intro _ _ c hc; simp at hc
  | cons c0 rest ih =>
    intro acc h c hc xl hxl
    cases c0 with
    | none =>
      rcases List.mem_cons.mp hc with heq | hmem
      · cases heq
      · exact ih acc h c hmem xl hxl
    | some g =>
      rw [isSavedUUIDInOrderAux] at h
      split at h
      · simp at h
      · rename_i xl0 hg
        split at h
        · simp at h
        · rename_i hcond
          rcases List.mem_cons.mp hc with heq | hmem
          · have hcg : c = g := by injection heq
            rw [hcg] at hxl
            rw [hxl] at hg
            have hxleq : xl = xl0 := by injection hg
            rw [hxleq]
            exact hcond
          · exact ih _ h c hmem xl hxl

/-- A successful checkDisksLoop run validated every nonempty collected uuid. -/
theorem checkDisksLoop_ok_found (cfgs : List (Option formatConfigV1)) :
    ∀ (ds : List String), checkDisksLoop cfgs ds = .ok () →
      ∀ u ∈ ds, u ≠ "" → isSavedUUIDInOrder u cfgs = .ok true := by
  intro ds
  induction ds with
  | nil => intro _ u hu; simp at hu
  | cons u0 rest ih =>
    intro h u hu hune
    rw [checkDisksLoop] at h
    split at h
    · rename_i hu0
      rcases List.mem_cons.mp hu with rfl | hmem
      · exact absurd hu0 hune
      · exact ih h u hmem hune
    · split at h
      · rename_i heq
        rcases List.mem_cons.mp hu with rfl | hmem
        · exact heq
        · exact ih h u hmem hune
      · simp at h
      · simp at h
      · simp at h

/-- collectDisks returns every present config's identity. -/
theorem collectDisks_mem :
    ∀ (cfgs : List (Option formatConfigV1)) (ds : List String),
      collectDisks cfgs = .ok ds →
      ∀ c, some c ∈ cfgs → ∀ xl, c.XL = some xl → xl.Disk ∈ ds := by
  intro cfgs
  induction cfgs with
  | nil => intro _ _ c hc; simp at hc
  | cons c0 rest ih =>
    intro ds h c hc xl hxl
    cases c0 with
    | none =>
      rw [collectDisks] at h
      obtain ⟨ds2, hds2, hcons⟩ := goBind_eq_ok h
      have hds : ds = "" :: ds2 := by
        have := GoResult.ok.inj hcons
        exact this.symm
      rcases List.mem_cons.mp hc with heq | hmem
      · cases heq
      · rw [hds]
        exact List.mem_cons_of_mem _ (ih ds2 hds2 c hmem xl hxl)
    | some g =>
      rw [collectDisks] at h
      split at h
      · simp at h
      · rename_i xl0 hg
        obtain ⟨ds2, hds2, hcons⟩ := goBind_eq_ok h
        have hds : ds = xl0.Disk :: ds2 := (GoResult.ok.inj hcons).symm
        rcases List.mem_cons.mp hc with heq | hmem
        · have hcg : c = g := by injection heq
          rw [hcg] at hxl
          rw [hxl] at hg
          have hxleq : xl = xl0 := by injection hg
          rw [hds, hxleq]
          exact List.mem_cons_self _ _
        · rw [hds]
          exact List.mem_cons_of_mem _ (ih ds2 hds2 c hmem xl hxl)

/-- A successful per-config checkFormatXL loop means every present config has
an xl section. -/
theorem checkFormatLoop_ok_isSome (n : Nat) :
    ∀ (cfgs : List (Option formatConfigV1)),
      checkFormatLoop n cfgs = .ok () →
      ∀ c, some c ∈ cfgs → (c.XL).isSome := by
  intro cfgs
  induction cfgs with
  | nil => intro _ c hc; simp at hc
  | cons c0 rest ih =>
    intro h c hc
    cases c0 with
    | none =>
      rcases List.mem_cons.mp hc with heq | hmem
      · cases heq
      · exact ih h c hmem
    | some g =>
      rw [checkFormatLoop] at h
      split at h
      · simp at h
      · split at h
        · simp at h
        · split at h
          · simp at h
          · rename_i xl0 hg
            split at h
            · simp at h
            · split at h
              · simp at h
              · rcases List.mem_cons.mp hc with heq | hmem
                · have hcg : c = g := by injection heq
                  rw [hcg, hg]
                  rfl
                · exact ih h c hmem

/-- reorderDisks placement loop on an all-present suffix with found, in-range,
pairwise-distinct targets: it succeeds, each processed config's endpoint lands
at its identity's order position, and untouched slots keep their previous
content. -/
theorem reorderLoop_spec {α : Type} (bootstrapDisks : List α) (savedJBOD : List String) :
    ∀ (cs : List formatConfigV1) (fIndex : Nat) (acc : List (Option α)),
      (∀ c ∈ cs, (c.XL).isSome) →
      (∀ c ∈ cs, findDiskIndex (xlDiskOf c) savedJBOD ≠ -1) →
      (∀ c ∈ cs, (findDiskIndex (xlDiskOf c) savedJBOD).toNat < acc.length) →
      fIndex + cs.length ≤ bootstrapDisks.length →
      (∀ (k1 k2 : Nat) (h1 : k1 < cs.length) (h2 : k2 < cs.length),
        xlDiskOf (cs.get ⟨k1, h1⟩) = xlDiskOf (cs.get ⟨k2, h2⟩) → k1 = k2) →
      ∃ out, reorderLoop bootstrapDisks savedJBOD fIndex acc (cs.map some) = .ok out ∧
        out.length = acc.length ∧
        (∀ k (hk : k < cs.length),
          out[(findDiskIndex (xlDiskOf (cs.get ⟨k, hk⟩)) savedJBOD).toNat]? =
            (bootstrapDisks[fIndex + k]?).map some) ∧
        (∀ j : Nat, (∀ k (hk : k < cs.length),
            (findDiskIndex (xlDiskOf (cs.get ⟨k, hk⟩)) savedJBOD).toNat ≠ j) →
          out[j]? = acc[j]?) := by
  intro cs
  induction cs with
  | nil =>
    intro fIndex acc _ _ _ _ _
    exact ⟨acc, rfl, rfl, fun k hk => absurd hk (by simp), fun j _ => rfl⟩
  | cons c rest ih =>
    intro fIndex acc hx hfound hbound hflen hdist
    obtain ⟨xl, hxl⟩ := Option.isSome_iff_exists.mp (hx c (List.mem_cons_self _ _))
    have hdisk : xlDiskOf c = xl.Disk := by unfold xlDiskOf; rw [hxl]
    have hcf : findDiskIndex xl.Disk savedJBOD ≠ -1 := by
      rw [← hdisk]
      exact hfound c (List.mem_cons_self _ _)
    have hcb : (findDiskIndex xl.Disk savedJBOD).toNat < acc.length := by
      rw [← hdisk]
      exact hbound c (List.mem_cons_self _ _)
    have hfb : fIndex < bootstrapDisks.length := by
      simp only [List.length_cons] at hflen
      omega
    obtain ⟨dsk, hdsk⟩ : ∃ d, bootstrapDisks[fIndex]? = some d :=
      ⟨bootstrapDisks.get ⟨fIndex, hfb⟩, by rw [List.getElem?_eq_getElem hfb]; rfl⟩
    have hstep : reorderLoop bootstrapDisks savedJBOD fIndex acc ((c :: rest).map some) =
        reorderLoop bootstrapDisks savedJBOD (fIndex + 1)
          (acc.set (findDiskIndex xl.Disk savedJBOD).toNat (some dsk)) (rest.map some) := by
      simp only [List.map_cons, reorderLoop, hxl, hdsk]
      rw [if_neg hcf, if_pos hcb]
    obtain ⟨out, hloop, hlenout, hcl1, hcl2⟩ :=
      ih (fIndex + 1) (acc.set (findDiskIndex xl.Disk savedJBOD).toNat (some dsk))
        (fun d hd => hx d (List.mem_cons_of_mem _ hd))
        (fun d hd => hfound d (List.mem_cons_of_mem _ hd))
        (fun d hd => by
          rw [List.length_set]
          exact hbound d (List.mem_cons_of_mem _ hd))
        (by simp only [List.length_cons] at hflen; omega)
        (fun k1 k2 h1 h2 heq =>
          Nat.succ_injective
            (hdist (k1 + 1) (k2 + 1) (by simpa using h1) (by simpa using h2) heq))
    have havoid : ∀ k (hk : k < rest.length),
        (findDiskIndex (xlDiskOf (rest.get ⟨k, hk⟩)) savedJBOD).toNat ≠
          (findDiskIndex xl.Disk savedJBOD).toNat := by
      intro k hk hcon
      have hf2 : findDiskIndex (xlDiskOf (rest.get ⟨k, hk⟩)) savedJBOD ≠ -1 :=
        hfound _ (List.mem_cons_of_mem _ (List.get_mem rest k hk))
      obtain ⟨hlt1, hget1⟩ := findDiskIndex_found _ _ hf2
      obtain ⟨hlt0, hget0⟩ := findDiskIndex_found xl.Disk savedJBOD hcf
      rw [hcon] at hget1
      have heqd : xlDiskOf (rest.get ⟨k, hk⟩) = xl.Disk :=
        Option.some.inj (hget1.symm.trans hget0)
      have heq0 : xlDiskOf ((c :: rest).get ⟨k + 1, by simpa using hk⟩) =
          xlDiskOf ((c :: rest).get ⟨0, by simp⟩) := by
        rw [show ((c :: rest).get ⟨k + 1, by simpa using hk⟩) = rest.get ⟨k, hk⟩ from rfl,
          show ((c :: rest).get ⟨0, by simp⟩) = c from rfl, heqd, hdisk]
      exact absurd (hdist (k + 1) 0 (by simpa using hk) (by simp) heq0) (by omega)
    refine ⟨out, ?_, by rw [hlenout, List.length_set], ?_, ?_⟩
    · rw [hstep]
      exact hloop
    · intro k hk
      cases k with
      | zero =>
        have hget : (c :: rest).get ⟨0, hk⟩ = c := rfl
        rw [hget, hdisk, hcl2 _ havoid, List.getElem?_set_self hcb, Nat.add_zero, hdsk]
        rfl
      | succ k2 =>
        have hk2 : k2 < rest.length := by simpa using hk
        have hget : (c :: rest).get ⟨k2 + 1, hk⟩ = rest.get ⟨k2, hk2⟩ := rfl
        rw [hget]
        have hres := hcl1 k2 hk2
        rw [show fIndex + 1 + k2 = fIndex + (k2 + 1) from by omega] at hres
        exact hres
    · intro j hj
      have hj0 : (findDiskIndex xl.Disk savedJBOD).toNat ≠ j := by
        have := hj 0 (by simp)
        simpa [hdisk] using this
      rw [hcl2 j (fun k hk => hj (k + 1) (by simpa using hk))]
      exact List.getElem?_set_ne hj0

/-- Any list is the table of its own indexing function, over an equal length. -/
theorem list_eq_ofFn {β : Type} (l : List β) (n : Nat) (h : l.length = n) :
    l = List.ofFn (fun j : Fin n => l.get (Fin.cast h.symm j)) := by
  subst h
  exact (List.ofFn_get l).symm

/-- Mapping a permutation over the full index enumeration permutes it. -/
theorem finRange_map_perm {n : Nat} (σ : Equiv.Perm (Fin n)) :
    ((List.finRange n).map σ).Perm (List.finRange n) := by
  refine List.perm_of_nodup_nodup_toFinset_eq
    ((List.nodup_finRange n).map σ.injective) (List.nodup_finRange n) ?_
  ext x
  simp only [List.mem_toFinset, List.mem_map, List.mem_finRange, true_and, iff_true]
  exact ⟨σ.symm x, σ.apply_symm_apply x⟩

/-- Two lists of the same length whose entries correspond along a permutation
of indices are permutations of each other. -/
theorem perm_of_index_equiv {β : Type} (l1 l2 : List β) (n : Nat)
    (h1 : l1.length = n) (h2 : l2.length = n) (σ : Equiv.Perm (Fin n))
    (h : ∀ j : Fin n, l1[(j : Nat)]? = l2[((σ j : Fin n) : Nat)]?) :
    l1.Perm l2 := by
  have hget : ∀ j : Fin n,
      l1.get (Fin.cast h1.symm j) = l2.get (Fin.cast h2.symm (σ j)) := by
    intro j
    have hj1 : (j : Nat) < l1.length := by
      rw [h1]
      exact j.isLt
    have hj2 : ((σ j : Fin n) : Nat) < l2.length := by
      rw [h2]
      exact (σ j).isLt
    have hv := h j
    rw [List.getElem?_eq_getElem hj1, List.getElem?_eq_getElem hj2] at hv
    exact Option.some.inj hv
  have hA : l1 = List.ofFn (fun j : Fin n => l1.get (Fin.cast h1.symm j)) :=
    list_eq_ofFn l1 n h1
  have hB : l2 = List.ofFn (fun j : Fin n => l2.get (Fin.cast h2.symm j)) :=
    list_eq_ofFn l2 n h2
  have hA2 : l1 = List.ofFn
      (fun j : Fin n => (fun m : Fin n => l2.get (Fin.cast h2.symm m)) (σ j)) := by
    rw [hA]
    exact congrArg List.ofFn (funext fun j => hget j)
  have hperm : (List.ofFn
      (fun j : Fin n => (fun m : Fin n => l2.get (Fin.cast h2.symm m)) (σ j))).Perm
      (List.ofFn (fun m : Fin n => l2.get (Fin.cast h2.symm m))) := by
    rw [List.ofFn_eq_map, List.ofFn_eq_map]
    have hmm : (List.finRange n).map
        (fun j : Fin n => (fun m : Fin n => l2.get (Fin.cast h2.symm m)) (σ j)) =
        ((List.finRange n).map σ).map (fun m : Fin n => l2.get (Fin.cast h2.symm m)) := by
      rw [List.map_map]
      rfl
    rw [hmm]
    exact List.Perm.map _ (finRange_map_perm σ)
  have final : (List.ofFn
      (fun j : Fin n => (fun m : Fin n => l2.get (Fin.cast h2.symm m)) (σ j))).Perm l2 := by
    conv_rhs => rw [hB]
    exact hperm
  rw [hA2]
  exact final

/-- C8 amended: on a fleet whose N manifests are all present, accepted by the
Consistency Checker, and — beyond what the checker enforces — carry pairwise
distinct, nonempty identities, the Reorderer succeeds and its output is a
permutation of the input endpoint vector: no slot is empty, and each endpoint
sits at the position its manifest's identity occupies in the saved order. -/
theorem c8_reorder_permutation {α : Type} (bootstrapDisks : List α)
    (realCfgs : List formatConfigV1) (order : List String)
    (hlen : bootstrapDisks.length = realCfgs.length)
    (hchk : checkFormatXL (realCfgs.map some) = .ok ())
    (hfirst : firstSavedJBOD (realCfgs.map some) = .ok order)
    (hnodup : ∀ (k1 k2 : Nat) (h1 : k1 < realCfgs.length) (h2 : k2 < realCfgs.length),
      xlDiskOf (realCfgs.get ⟨k1, h1⟩) = xlDiskOf (realCfgs.get ⟨k2, h2⟩) → k1 = k2)
    (hne : ∀ c ∈ realCfgs, xlDiskOf c ≠ "") :
    ∃ out, reorderDisks bootstrapDisks (realCfgs.map some) = .ok out ∧
      out.length = bootstrapDisks.length ∧
      (∀ x ∈ out, x ≠ none) ∧
      out.Perm (bootstrapDisks.map some) ∧
      (∀ k (hk : k < realCfgs.length),
        out[(findDiskIndex (xlDiskOf (realCfgs.get ⟨k, hk⟩)) order).toNat]? =
          (bootstrapDisks[k]?).map some) := by
  rw [checkFormatXL] at hchk
  obtain ⟨a, h1, h2⟩ := goBind_eq_ok hchk
  cases a
  obtain ⟨b, h3, h4⟩ := goBind_eq_ok h2
  cases b
  rw [checkDisksConsistency] at h4
  obtain ⟨ds, hds, hdloop⟩ := goBind_eq_ok h4
  have hx : ∀ c ∈ realCfgs, (c.XL).isSome := fun c hc =>
    checkFormatLoop_ok_isSome _ _ h1 c (List.mem_map_of_mem some hc)
  have hfact : ∀ c ∈ realCfgs, findDiskIndex (xlDiskOf c) order ≠ -1 ∧
      (findDiskIndex (xlDiskOf c) order).toNat < realCfgs.length := by
    intro c hc
    obtain ⟨xl, hxl⟩ := Option.isSome_iff_exists.mp (hx c hc)
    have hdiskc : xlDiskOf c = xl.Disk := by unfold xlDiskOf; rw [hxl]
    have hmemds : xl.Disk ∈ ds :=
      collectDisks_mem _ ds hds c (List.mem_map_of_mem some hc) xl hxl
    have hdne : xl.Disk ≠ "" := by
      rw [← hdiskc]
      exact hne c hc
    have hsaved : isSavedUUIDInOrder xl.Disk (realCfgs.map some) = .ok true :=
      checkDisksLoop_ok_found _ ds hdloop xl.Disk hmemds hdne
    obtain ⟨c0, rest, hreal⟩ : ∃ c0 rest, realCfgs = c0 :: rest := by
      cases realCfgs with
      | nil => simp at hc
      | cons c0 rest => exact ⟨c0, rest, rfl⟩
    have hc0mem : c0 ∈ realCfgs := by
      rw [hreal]
      exact List.mem_cons_self _ _
    obtain ⟨xl0, hxl0⟩ := Option.isSome_iff_exists.mp (hx c0 hc0mem)
    have horder : order = xl0.JBOD := by
      rw [hreal] at hfirst
      simp only [List.map_cons, firstSavedJBOD, hxl0] at hfirst
      exact (GoResult.ok.inj hfirst).symm
    have hfound0 : findDiskIndex xl.Disk xl0.JBOD ≠ -1 :=
      isSavedUUIDInOrderAux_ok_true_found xl.Disk (realCfgs.map some) [] hsaved
        c0 (List.mem_map_of_mem some hc0mem) xl0 hxl0
    have hlen0 : xl0.JBOD.length = realCfgs.length := by
      have := checkFormatLoop_ok_len _ _ h1 c0 (List.mem_map_of_mem some hc0mem) xl0 hxl0
      rw [List.length_map] at this
      exact this
    refine ⟨by rw [hdiskc, horder]; exact hfound0, ?_⟩
    rw [hdiskc, horder]
    have hlt := (findDiskIndex_found _ _ hfound0).1
    omega
  obtain ⟨out, hloop, hlenout, hcl1, hcl2⟩ :=
    reorderLoop_spec bootstrapDisks order realCfgs 0
      (List.replicate bootstrapDisks.length none)
      hx (fun c hc => (hfact c hc).1)
      (fun c hc => by
        rw [List.length_replicate, hlen]
        exact (hfact c hc).2)
      (by rw [hlen]; omega)
      hnodup
  have hout_eq : reorderDisks bootstrapDisks (realCfgs.map some) = .ok out := by
    rw [reorderDisks, hfirst]
    exact hloop
  have houtlen : out.length = bootstrapDisks.length := by
    rw [hlenout, List.length_replicate]
  have hfin : ∀ i : Fin realCfgs.length,
      (findDiskIndex (xlDiskOf (realCfgs.get i)) order).toNat < realCfgs.length :=
    fun i => (hfact _ (List.get_mem realCfgs i.1 i.2)).2
  have hinj : Function.Injective (fun i : Fin realCfgs.length =>
      (⟨(findDiskIndex (xlDiskOf (realCfgs.get i)) order).toNat, hfin i⟩ :
        Fin realCfgs.length)) := by
    intro i j hij
    have hv : (findDiskIndex (xlDiskOf (realCfgs.get i)) order).toNat =
        (findDiskIndex (xlDiskOf (realCfgs.get j)) order).toNat := congrArg Fin.val hij
    have hfi := (hfact _ (List.get_mem realCfgs i.1 i.2)).1
    have hfj := (hfact _ (List.get_mem realCfgs j.1 j.2)).1
    obtain ⟨_, hgi⟩ := findDiskIndex_found _ _ hfi
    obtain ⟨_, hgj⟩ := findDiskIndex_found _ _ hfj
    rw [hv] at hgi
    have heqd : xlDiskOf (realCfgs.get i) = xlDiskOf (realCfgs.get j) :=
      Option.some.inj (hgi.symm.trans hgj)
    exact Fin.ext (hnodup i.1 j.1 i.2 j.2 heqd)
  have hsurj := Finite.injective_iff_surjective.mp hinj
  have hcorr : ∀ j : Fin realCfgs.length,
      out[(j : Nat)]? =
        (bootstrapDisks.map some)[(((Equiv.ofBijective _ ⟨hinj, hsurj⟩).symm j :
          Fin realCfgs.length) : Nat)]? := by
    intro j
    have hj : (fun i : Fin realCfgs.length =>
        (⟨(findDiskIndex (xlDiskOf (realCfgs.get i)) order).toNat, hfin i⟩ :
          Fin realCfgs.length)) ((Equiv.ofBijective _ ⟨hinj, hsurj⟩).symm j) = j :=
      (Equiv.ofBijective _ ⟨hinj, hsurj⟩).apply_symm_apply j
    have hval : (findDiskIndex (xlDiskOf (realCfgs.get
        ⟨((Equiv.ofBijective _ ⟨hinj, hsurj⟩).symm j).1,
         ((Equiv.ofBijective _ ⟨hinj, hsurj⟩).symm j).2⟩)) order).toNat = (j : Nat) :=
      congrArg Fin.val hj
    have hcl := hcl1 ((Equiv.ofBijective _ ⟨hinj, hsurj⟩).symm j).1
      ((Equiv.ofBijective _ ⟨hinj, hsurj⟩).symm j).2
    rw [zero_add, hval] at hcl
    rw [hcl, List.getElem?_map]
  have hperm : out.Perm (bootstrapDisks.map some) :=
    perm_of_index_equiv out (bootstrapDisks.map some) realCfgs.length
      (by rw [houtlen, hlen]) (by rw [List.length_map, hlen])
      (Equiv.ofBijective _ ⟨hinj, hsurj⟩).symm hcorr
  have hnone : ∀ x ∈ out, x ≠ none := by
    intro x hxmem hxeq
    subst hxeq
    obtain ⟨j, hj⟩ := List.getElem?_of_mem hxmem
    have hjlt : j < realCfgs.length := by
      rcases List.getElem?_eq_some.mp hj with ⟨hlt, _⟩
      rw [houtlen, hlen] at hlt
      exact hlt
    have hco := hcorr ⟨j, hjlt⟩
    rw [hj, List.getElem?_map] at hco
    have hmlt : (((Equiv.ofBijective _ ⟨hinj, hsurj⟩).symm ⟨j, hjlt⟩ :
        Fin realCfgs.length) : Nat) < bootstrapDisks.length := by
      rw [hlen]
      exact ((Equiv.ofBijective _ ⟨hinj, hsurj⟩).symm ⟨j, hjlt⟩).2
    rw [List.getElem?_eq_getElem hmlt] at hco
    simp at hco
  refine ⟨out, hout_eq, houtlen, hnone, hperm, ?_⟩
  intro k hk
  have := hcl1 k hk
  rw [zero_add] at this
  exact this

/-- C8 witness: two endpoints 10 and 20 with distinct identities "u", "v";
the Reorderer's output is a full, empty-slot-free permutation. -/
theorem c8_witness :
    ∃ out, reorderDisks [(10 : Nat), 20] ([cfgB1, cfgB2].map some) = .ok out ∧
      out.length = ([(10 : Nat), 20] : List Nat).length ∧
      (∀ x ∈ out, x ≠ none) ∧
      out.Perm ([(10 : Nat), 20].map some) ∧
      (∀ k (hk : k < ([cfgB1, cfgB2] : List formatConfigV1).length),
        out[(findDiskIndex (xlDiskOf ([cfgB1, cfgB2].get ⟨k, hk⟩)) ["u", "v"]).toNat]? =
          (([(10 : Nat), 20] : List Nat)[k]?).map some) :=
  c8_reorder_permutation [10, 20] [cfgB1, cfgB2] ["u", "v"] rfl (by decide) (by decide)
    (by
      have hd : ∀ i j : Fin 2,
          xlDiskOf ([cfgB1, cfgB2].get i) = xlDiskOf ([cfgB1, cfgB2].get j) → i = j := by
        decide
      intro k1 k2 h1 h2 heq
      have hv := hd ⟨k1, by simpa using h1⟩ ⟨k2, by simpa using h2⟩ heq
      exact congrArg Fin.val hv)
    (by decide)
